import Mathlib

/-! The Haunted Frequency Garden: a shallow embedding of `sketch.js`.

Numbers are exact rationals, except in `analyzeAudioSmoothDouble`, which
evaluates the smoothing as the engine does, in IEEE 754 doubles, each
operation rounded by `roundDouble`.  Everything the sketch obtains from the p5
library or the browser (canvas size, `sin`, `cos`, `noise`, `random`,
`p5.Vector.random3D`, the FFT readings) is a parameter: the functions are
fields of `Env`, the FFT readings are an argument of `analyzeAudioSmooth`.
Random draws are numbered: the k-th draw, when it is a call `random(a, b)`,
returns `env.random k a b`, and when it is a call `p5.Vector.random3D()`,
returns `env.random3D k`; the number of draws made so far is threaded
through every function that draws. The call `random(x)` with one argument is
the draw `env.random k 0 x`.
-/

namespace Garden

/-! ## Library primitives -/

/-- A 3D vector, as built by p5 `createVector`. -/
structure Vec3 where
  x : ℚ
  y : ℚ
  z : ℚ
deriving DecidableEq, Repr

/-- Everything read from p5 or the browser. -/
structure Env where
  width : ℚ
  height : ℚ
  TWO_PI : ℚ
  sin : ℚ → ℚ
  cos : ℚ → ℚ
  noise : ℚ → ℚ
  random : Nat → ℚ → ℚ → ℚ
  random3D : Nat → Vec3

/-- The p5 function `lerp(start, stop, amt)`, in exact arithmetic; `lerpDouble`
is its evaluation in doubles. -/
def lerp (start stop amt : ℚ) : ℚ := amt * (stop - start) + start

/-- The p5 function `map(n, start1, stop1, start2, stop2)`. -/
def map (n start1 stop1 start2 stop2 : ℚ) : ℚ :=
  (n - start1) / (stop1 - start1) * (stop2 - start2) + start2

/-- The assumption on p5 `random(a, b)`: every draw lies between
`min a b` and `max a b`. -/
def RandomInRange (env : Env) : Prop :=
  ∀ (k : Nat) (a b : ℚ), min a b ≤ env.random k a b ∧ env.random k a b ≤ max a b

namespace Vec3

def add (u v : Vec3) : Vec3 := ⟨u.x + v.x, u.y + v.y, u.z + v.z⟩

def mult (u : Vec3) (c : ℚ) : Vec3 := ⟨u.x * c, u.y * c, u.z * c⟩

/-- The p5 function `p5.Vector.lerp(v1, v2, amt)`. -/
def lerp (u v : Vec3) (amt : ℚ) : Vec3 :=
  ⟨Garden.lerp u.x v.x amt, Garden.lerp u.y v.y amt, Garden.lerp u.z v.z amt⟩

end Vec3

/-! ## Module-level variables -/

/-- The scalar module-level variables of the sketch, `song.isPlaying()`
(`songPlaying`) and the two DOM texts the sketch writes: `statusText` is
`none` when the page has no such element. -/
structure Globals where
  audioContextInitialized : Bool
  audioLoaded : Bool
  isPlaying : Bool
  songPlaying : Bool
  cameraZ : ℚ
  cameraRotation : ℚ
  lastEnergyLevels : List ℚ
  rotationTarget : ℚ
  bassEnergy : ℚ
  midEnergy : ℚ
  trebleEnergy : ℚ
  smoothedBass : ℚ
  smoothedMid : ℚ
  smoothedTreble : ℚ
  globalTime : ℚ
  noiseOffset : ℚ
  statusText : Option String
  playBtnText : String
deriving DecidableEq

/-- The values the `let` declarations at the top of the sketch give. -/
def Globals.initial (status : Option String) (btn : String) : Globals where
  audioContextInitialized := false
  audioLoaded := false
  isPlaying := false
  songPlaying := false
  cameraZ := 0
  cameraRotation := 0
  lastEnergyLevels := [0, 0, 0]
  rotationTarget := 0
  bassEnergy := 0
  midEnergy := 0
  trebleEnergy := 0
  smoothedBass := 0
  smoothedMid := 0
  smoothedTreble := 0
  globalTime := 0
  noiseOffset := 0
  statusText := status
  playBtnText := btn

def MASS_COUNT : Nat := 8
def CLUSTER_COUNT : Nat := 12
def VINE_COUNT : Nat := 6
def SMOKE_COUNT : Nat := 40
def LINE_COUNT : Nat := 8

/-- The three readings `fft.getEnergy` returns in one frame. -/
structure RawEnergy where
  rawBass : ℚ
  rawMid : ℚ
  rawTreble : ℚ
deriving DecidableEq

/-! ## Audio analysis and camera -/

def analyzeAudioSmooth (raw : RawEnergy) (g : Globals) : Globals :=
  { g with
    smoothedBass := lerp g.smoothedBass raw.rawBass (4 / 100)
    smoothedMid := lerp g.smoothedMid raw.rawMid (4 / 100)
    smoothedTreble := lerp g.smoothedTreble raw.rawTreble (4 / 100)
    bassEnergy := raw.rawBass
    midEnergy := raw.rawMid
    trebleEnergy := raw.rawTreble }

def updateCameraSystem (env : Env) (g : Globals) : Globals :=
  let forwardSpeed := 2 + g.smoothedBass * (8 / 1000)
  let rotationTarget := lerp g.rotationTarget
    (env.sin (g.globalTime * (2 / 10)) * g.smoothedMid * (3 / 10000)) (2 / 100)
  { g with
    cameraZ := g.cameraZ + forwardSpeed
    rotationTarget := rotationTarget
    cameraRotation := lerp g.cameraRotation rotationTarget (3 / 100) }

def updateGlobalAnimations (g : Globals) : Globals :=
  { g with
    globalTime := g.globalTime + 16 / 1000
    noiseOffset := g.noiseOffset + 2 / 1000 }

def updateStatus (message : String) (g : Globals) : Globals :=
  match g.statusText with
  | some _ => { g with statusText := some message }
  | none => g

def togglePlay (g : Globals) : Globals :=
  if !g.audioContextInitialized then
    updateStatus "initialize audio first" g
  else if !g.audioLoaded then
    updateStatus "audio file not found" g
  else if g.songPlaying then
    updateStatus "garden paused"
      { g with songPlaying := false, isPlaying := false, playBtnText := "enter garden" }
  else
    updateStatus "exploring garden"
      { g with songPlaying := true, isPlaying := true, playBtnText := "exit garden" }

/-! ## The smoothing in IEEE 754 doubles -/

/-- The integer nearest to `q`, a tie going to the even one: the rounding
of IEEE 754 arithmetic. -/
def roundHalfEven (q : ℚ) : ℤ :=
  if q - ⌊q⌋ < 1 / 2 then ⌊q⌋
  else if 1 / 2 < q - ⌊q⌋ then ⌊q⌋ + 1
  else if ⌊q⌋ % 2 = 0 then ⌊q⌋
  else ⌊q⌋ + 1

/-- The exponent of the binade of a double near `x`: `floor (log2 |x|)`, not
below -1022, where the subnormal numbers begin. -/
def binade (x : ℚ) : ℤ := max (Int.log 2 |x|) (-1022)

/-- The distance between neighbouring doubles near `x`: 52 fraction bits. -/
def ulp (x : ℚ) : ℚ := (2 : ℚ) ^ (binade x - 52)

/-- The double nearest to `x`, a tie going to the even significand: the
result an arithmetic operation of JavaScript returns when its exact result
is `x`. Overflow is left out: the definition is the engine's rounding for
`|x| < 2 ^ 1024`. -/
def roundDouble (x : ℚ) : ℚ := roundHalfEven (x / ulp x) * ulp x

/-- The rational `x` is the value of a double. -/
def IsDouble (x : ℚ) : Prop := roundDouble x = x

instance (x : ℚ) : Decidable (IsDouble x) := by
  unfold IsDouble
  infer_instance

/-- A double of magnitude at most `2 ^ 1022`: no operation of `lerp` on two
such values overflows. -/
def SafeDouble (x : ℚ) : Prop := IsDouble x ∧ |x| ≤ 2 ^ 1022

instance (x : ℚ) : Decidable (SafeDouble x) := by
  unfold SafeDouble
  infer_instance

/-- The p5 function `lerp(start, stop, amt)`, which returns
`amt * (stop - start) + start`, with each of its three operations rounded to
a double. -/
def lerpDouble (start stop amt : ℚ) : ℚ :=
  roundDouble (roundDouble (amt * roundDouble (stop - start)) + start)

/-- The function `analyzeAudioSmooth` as the engine evaluates it: the
literal `0.04` is the double nearest to 4/100 and `lerp` computes in
doubles. -/
def analyzeAudioSmoothDouble (raw : RawEnergy) (g : Globals) : Globals :=
  { g with
    smoothedBass := lerpDouble g.smoothedBass raw.rawBass (roundDouble (4 / 100))
    smoothedMid := lerpDouble g.smoothedMid raw.rawMid (roundDouble (4 / 100))
    smoothedTreble := lerpDouble g.smoothedTreble raw.rawTreble (roundDouble (4 / 100))
    bassEnergy := raw.rawBass
    midEnergy := raw.rawMid
    trebleEnergy := raw.rawTreble }

/-! ## Loops -/

/-- The loop `arr.forEach((x, index) => ...)` whose callback mutates the
element `x` and some state outside the element. -/
def forEachIdx {α σ : Type} (f : σ → Nat → α → σ × α) : σ → Nat → List α → σ × List α
  | st, _, [] => (st, [])
  | st, i, x :: xs =>
    let r := f st i x
    let rs := forEachIdx f r.1 (i + 1) xs
    (rs.1, r.2 :: rs.2)

/-- The loop `arr.forEach((x, index) => ...)` whose callback only changes
state outside the array. -/
def foldIdx {α σ : Type} (f : σ → Nat → α → σ) : σ → Nat → List α → σ
  | st, _, [] => st
  | st, i, x :: xs => foldIdx f (f st i x) (i + 1) xs

/-- The loop `for (let i = 0; i < n; i++) body`. -/
def forLoop {σ : Type} (n : Nat) (body : Nat → σ → σ) (st : σ) : σ :=
  (List.range n).foldl (fun acc i => body i acc) st

/-- The loop `while (pool.length < target) pool.push(new ...)`, where `mk`
is the constructor. It runs `target - pool.length` times, which is the fuel
`topUp` gives it. -/
def topUpLoop {α : Type} (target : Nat) (mk : Nat → α × Nat) :
    Nat → List α × Nat → List α × Nat
  | 0, st => st
  | fuel + 1, st =>
    if st.1.length < target then
      let r := mk st.2
      topUpLoop target mk fuel (st.1 ++ [r.1], r.2)
    else st

def topUp {α : Type} (target : Nat) (mk : Nat → α × Nat) (st : List α × Nat) :
    List α × Nat :=
  topUpLoop target mk (target - st.1.length) st

/-! ## Organic Mass (bass) -/

structure MassVertex where
  angle : ℚ
  radius : ℚ
  baseRadius : ℚ
  height : ℚ
deriving DecidableEq

structure OrganicMass where
  position : Vec3
  baseSize : ℚ
  size : ℚ
  vertices : List MassVertex
  noiseOffsets : List ℚ
  morphPhase : ℚ
deriving DecidableEq

namespace OrganicMass

/-- One turn of the loop of `generateOrganicShape`; the state is the mass
and the number of draws made. -/
def pushVertex (env : Env) (vertexCount : ℤ) (i : Nat) (st : OrganicMass × Nat) :
    OrganicMass × Nat :=
  let m := st.1
  let k := st.2
  let angle := (env.TWO_PI / vertexCount) * i
  let radius := env.random k (6 / 10) (14 / 10)
  let vertex : MassVertex :=
    { angle := angle, radius := radius, baseRadius := radius,
      height := env.random (k + 1) (-20) 20 }
  ({ m with vertices := m.vertices ++ [vertex]
            noiseOffsets := m.noiseOffsets ++ [env.random (k + 2) 0 1000] }, k + 3)

def generateOrganicShape (env : Env) (k : Nat) (m : OrganicMass) : OrganicMass × Nat :=
  let vertexCount : ℤ := ⌊env.random k 12 20⌋
  forLoop vertexCount.toNat (pushVertex env vertexCount)
    ({ m with vertices := [], noiseOffsets := [] }, k + 1)

/-- The constructor `new OrganicMass()`. -/
def new (env : Env) (cameraZ : ℚ) (k : Nat) : OrganicMass × Nat :=
  let baseSize := env.random (k + 3) 120 300
  generateOrganicShape env (k + 5)
    { position :=
        ⟨env.random k (-env.width * (18 / 10)) (env.width * (18 / 10)),
         env.random (k + 1) (-env.height * (8 / 10)) (env.height * (8 / 10)),
         cameraZ + env.random (k + 2) (-800) (-2000)⟩
      baseSize := baseSize
      size := baseSize
      vertices := []
      noiseOffsets := []
      morphPhase := env.random (k + 4) 0 env.TWO_PI }

/-- The callback of `this.vertices.forEach` in `update`; the state outside
the vertex is the array `noiseOffsets`. An index past the end of
`noiseOffsets` (which no mass built by `generateOrganicShape` has) reads 0
and writes nothing. -/
def morphVertex (env : Env) (g : Globals) (morphPhase : ℚ) (offs : List ℚ) (index : Nat)
    (vertex : MassVertex) : List ℚ × MassVertex :=
  let noiseVal := env.noise (offs.getD index 0 + g.noiseOffset * 3)
  let bassInfluence := map g.smoothedBass 0 255 (8 / 10) (22 / 10)
  (offs.set index (offs.getD index 0 + 3 / 1000),
   { vertex with
     radius := vertex.baseRadius * noiseVal * bassInfluence
     height := vertex.height
       + env.sin (morphPhase + index * (5 / 10)) * g.smoothedBass * (2 / 1000) })

def update (env : Env) (g : Globals) (k : Nat) (m : OrganicMass) : OrganicMass × Nat :=
  if !g.isPlaying then (m, k)
  else
    let morphPhase := m.morphPhase + (8 / 1000 + g.smoothedBass * (5 / 100000))
    let r := forEachIdx (morphVertex env g morphPhase) m.noiseOffsets 0 m.vertices
    let m1 : OrganicMass :=
      { m with morphPhase := morphPhase
               size := m.baseSize + g.smoothedBass * (15 / 10)
               vertices := r.2
               noiseOffsets := r.1 }
    if m1.position.z < g.cameraZ - 2500 then
      generateOrganicShape env (k + 1)
        { m1 with position := { m1.position with z := g.cameraZ + env.random k (-200) (-1500) } }
    else (m1, k)

end OrganicMass

/-! ## Particle Cluster (treble) -/

structure Particle where
  offset : Vec3
  noiseOffset : ℚ
  size : ℚ
  opacity : ℚ
deriving DecidableEq

structure ParticleCluster where
  position : Vec3
  particles : List Particle
  baseCount : ℤ
deriving DecidableEq

namespace ParticleCluster

/-- One turn of the loop of `generateParticleCloud`. -/
def pushParticle (env : Env) (_i : Nat) (st : ParticleCluster × Nat) :
    ParticleCluster × Nat :=
  let c := st.1
  let k := st.2
  let particle : Particle :=
    { offset := (env.random3D k).mult (env.random (k + 1) 30 150)
      noiseOffset := env.random (k + 2) 0 1000
      size := env.random (k + 3) 2 8
      opacity := env.random (k + 4) (3 / 10) (8 / 10) }
  ({ c with particles := c.particles ++ [particle] }, k + 5)

def generateParticleCloud (env : Env) (k : Nat) (c : ParticleCluster) :
    ParticleCluster × Nat :=
  forLoop c.baseCount.toNat (pushParticle env) ({ c with particles := [] }, k)

/-- The constructor `new ParticleCluster()`. -/
def new (env : Env) (cameraZ : ℚ) (k : Nat) : ParticleCluster × Nat :=
  generateParticleCloud env (k + 4)
    { position :=
        ⟨env.random k (-env.width * (25 / 10)) (env.width * (25 / 10)),
         env.random (k + 1) (-env.height) env.height,
         cameraZ + env.random (k + 2) (-500) (-1800)⟩
      particles := []
      baseCount := ⌊env.random (k + 3) 40 80⌋ }

/-- The callback of `this.particles.forEach` in `update`; the state outside
the particle is the number of draws made. -/
def moveParticle (env : Env) (g : Globals) (k : Nat) (_index : Nat) (particle : Particle) :
    Nat × Particle :=
  let noiseOffset := particle.noiseOffset + 4 / 1000
  let noiseVal := env.noise noiseOffset
  let trebleInfluence := g.smoothedTreble * (1 / 100)
  (k + 2,
   { particle with
     noiseOffset := noiseOffset
     offset := ((particle.offset.add ((env.random3D k).mult (noiseVal * trebleInfluence))).mult
       (98 / 100))
     size := env.random (k + 1) 2 8 + g.smoothedTreble * (2 / 100) })

def update (env : Env) (g : Globals) (k : Nat) (c : ParticleCluster) :
    ParticleCluster × Nat :=
  if !g.isPlaying then (c, k)
  else
    let r := forEachIdx (moveParticle env g) k 0 c.particles
    let c1 : ParticleCluster := { c with particles := r.2 }
    if c1.position.z < g.cameraZ - 2200 then
      generateParticleCloud env (r.1 + 1)
        { c1 with
          position := { c1.position with z := g.cameraZ + env.random r.1 (-300) (-1200) } }
    else (c1, r.1)

end ParticleCluster

/-! ## Creeping Vine (mid) -/

structure VineSegment where
  position : Vec3
  thickness : ℚ
  noiseOffset : ℚ
deriving DecidableEq

structure CreepingVine where
  position : Vec3
  segments : List VineSegment
  maxSegments : ℤ
  baseThickness : ℚ
  growthPhase : ℚ
deriving DecidableEq

namespace CreepingVine

/-- One turn of the loop of `initializeVine`; the state is the vine, the
local `currentPos` and the number of draws made. -/
def pushSegment (env : Env) (i : Nat) (st : CreepingVine × Vec3 × Nat) :
    CreepingVine × Vec3 × Nat :=
  let v := st.1
  let k := st.2.2
  let segmentLength := env.random k 15 35
  let angle := env.random (k + 1) (-(3 / 10)) (3 / 10)
  let currentPos := st.2.1.add
    ⟨env.cos angle * segmentLength, env.sin angle * segmentLength, env.random (k + 2) (-5) 5⟩
  let segment : VineSegment :=
    { position := currentPos
      thickness := v.baseThickness * (1 - i / v.maxSegments)
      noiseOffset := env.random (k + 3) 0 1000 }
  ({ v with segments := v.segments ++ [segment] }, currentPos, k + 4)

def initializeVine (env : Env) (k : Nat) (v : CreepingVine) : CreepingVine × Nat :=
  let r := forLoop v.maxSegments.toNat (pushSegment env) ({ v with segments := [] }, ⟨0, 0, 0⟩, k)
  (r.1, r.2.2)

/-- The constructor `new CreepingVine()`. -/
def new (env : Env) (cameraZ : ℚ) (k : Nat) : CreepingVine × Nat :=
  initializeVine env (k + 6)
    { position :=
        ⟨env.random k (-env.width * 2) (env.width * 2),
         env.random (k + 1) (-env.height) env.height,
         cameraZ + env.random (k + 2) (-600) (-1800)⟩
      segments := []
      maxSegments := ⌊env.random (k + 3) 15 30⌋
      baseThickness := env.random (k + 4) 4 12
      growthPhase := env.random (k + 5) 0 env.TWO_PI }

/-- The callback of `this.segments.forEach` in `update`; it changes nothing
outside the segment. -/
def swaySegment (env : Env) (g : Globals) (v : CreepingVine) (growthPhase : ℚ) (_u : Unit)
    (index : Nat) (segment : VineSegment) : Unit × VineSegment :=
  let noiseOffset := segment.noiseOffset + 5 / 1000
  let noiseVal := env.noise (noiseOffset + g.noiseOffset * 2)
  let midInfluence := g.smoothedMid * (8 / 1000)
  ((),
   { noiseOffset := noiseOffset
     position := segment.position.add
       ⟨env.sin (growthPhase + index * (3 / 10)) * midInfluence,
        env.cos (growthPhase + index * (4 / 10)) * midInfluence * (7 / 10),
        noiseVal * midInfluence⟩
     thickness := v.baseThickness * (1 - index / v.maxSegments) + g.smoothedMid * (1 / 100) })

def update (env : Env) (g : Globals) (k : Nat) (v : CreepingVine) : CreepingVine × Nat :=
  if !g.isPlaying then (v, k)
  else
    let growthPhase := v.growthPhase + (15 / 1000 + g.smoothedMid * (8 / 100000))
    let r := forEachIdx (swaySegment env g v growthPhase) () 0 v.segments
    let v1 : CreepingVine := { v with growthPhase := growthPhase, segments := r.2 }
    if v1.position.z < g.cameraZ - 2300 then
      initializeVine env (k + 1)
        { v1 with position := { v1.position with z := g.cameraZ + env.random k (-400) (-1200) } }
    else (v1, k)

end CreepingVine

/-! ## Smoke Particle (bass) -/

structure SmokeParticle where
  position : Vec3
  size : ℚ
  opacity : ℚ
  driftSpeed : ℚ
  noiseOffset : ℚ
deriving DecidableEq

namespace SmokeParticle

/-- The constructor `new SmokeParticle()`. -/
def new (env : Env) (cameraZ : ℚ) (k : Nat) : SmokeParticle × Nat :=
  ({ position :=
       ⟨env.random k (-env.width * 3) (env.width * 3),
        env.random (k + 1) (-env.height * (15 / 10)) (env.height * (15 / 10)),
        cameraZ + env.random (k + 2) (-1000) (-2500)⟩
     size := env.random (k + 3) 50 150
     opacity := env.random (k + 4) (2 / 10) (6 / 10)
     driftSpeed := env.random (k + 5) (3 / 10) (8 / 10)
     noiseOffset := env.random (k + 6) 0 1000 }, k + 7)

def update (env : Env) (g : Globals) (k : Nat) (p : SmokeParticle) : SmokeParticle × Nat :=
  if !g.isPlaying then (p, k)
  else
    let noiseOffset := p.noiseOffset + 3 / 1000
    let p1 : SmokeParticle :=
      { p with
        noiseOffset := noiseOffset
        position :=
          { p.position with
            x := p.position.x + map (env.noise noiseOffset) 0 1 (-p.driftSpeed) p.driftSpeed
            y := p.position.y + map (env.noise (noiseOffset + 100)) 0 1
              (-p.driftSpeed * (5 / 10)) (p.driftSpeed * (5 / 10)) }
        size := env.random k 50 150 + g.smoothedBass * (5 / 10) }
    if p1.position.z < g.cameraZ - 3000 then
      ({ p1 with
         position := { p1.position with z := g.cameraZ + env.random (k + 1) (-500) (-2000) } },
       k + 2)
    else (p1, k + 1)

end SmokeParticle

/-! ## Morphing Line (treble) -/

structure ControlPoint where
  position : Vec3
  basePosition : Vec3
  offset : Vec3
  noiseOffset : ℚ
deriving DecidableEq

structure MorphingLine where
  startPos : Vec3
  endPos : Vec3
  controlPoints : List ControlPoint
  morphPhase : ℚ
deriving DecidableEq

namespace MorphingLine

/-- One turn of the loop of `generateControlPoints`. -/
def pushControlPoint (env : Env) (segments : ℤ) (i : Nat) (st : MorphingLine × Nat) :
    MorphingLine × Nat :=
  let l := st.1
  let k := st.2
  let t : ℚ := i / segments
  let basePos := Vec3.lerp l.startPos l.endPos t
  let point : ControlPoint :=
    { position := basePos, basePosition := basePos, offset := ⟨0, 0, 0⟩,
      noiseOffset := env.random k 0 1000 }
  ({ l with controlPoints := l.controlPoints ++ [point] }, k + 1)

/-- The loop runs for `i = 0, ..., segments`, that is `segments + 1` times. -/
def generateControlPoints (env : Env) (k : Nat) (l : MorphingLine) : MorphingLine × Nat :=
  let segments : ℤ := ⌊env.random k 8 16⌋
  forLoop (segments + 1).toNat (pushControlPoint env segments)
    ({ l with controlPoints := [] }, k + 1)

/-- The constructor `new MorphingLine()`. -/
def new (env : Env) (cameraZ : ℚ) (k : Nat) : MorphingLine × Nat :=
  generateControlPoints env (k + 7)
    { startPos :=
        ⟨env.random k (-env.width * 2) (env.width * 2),
         env.random (k + 1) (-env.height) env.height,
         cameraZ + env.random (k + 2) (-800) (-1800)⟩
      endPos :=
        ⟨env.random (k + 3) (-env.width * 2) (env.width * 2),
         env.random (k + 4) (-env.height) env.height,
         cameraZ + env.random (k + 5) (-800) (-1800)⟩
      controlPoints := []
      morphPhase := env.random (k + 6) 0 env.TWO_PI }

/-- The callback of `this.controlPoints.forEach` in `update`; the state
outside the point is the number of draws made. -/
def morphPoint (env : Env) (g : Globals) (morphPhase : ℚ) (k : Nat) (index : Nat)
    (point : ControlPoint) : Nat × ControlPoint :=
  let noiseOffset := point.noiseOffset + 8 / 1000
  let noiseVal := env.noise (noiseOffset + g.noiseOffset * 4)
  let trebleInfluence := g.smoothedTreble * (3 / 10)
  let morphAmount := env.sin (morphPhase + index * (5 / 10)) * trebleInfluence
  let offset := (env.random3D k).mult (noiseVal * trebleInfluence + morphAmount)
  (k + 1,
   { point with
     noiseOffset := noiseOffset
     offset := offset
     position := point.basePosition.add offset })

def update (env : Env) (g : Globals) (k : Nat) (l : MorphingLine) : MorphingLine × Nat :=
  if !g.isPlaying then (l, k)
  else
    let morphPhase := l.morphPhase + (2 / 100 + g.smoothedTreble * (1 / 10000))
    let r := forEachIdx (morphPoint env g morphPhase) k 0 l.controlPoints
    let l1 : MorphingLine := { l with morphPhase := morphPhase, controlPoints := r.2 }
    if l1.startPos.z < g.cameraZ - 2400 then
      generateControlPoints env (r.1 + 2)
        { l1 with
          startPos := { l1.startPos with z := g.cameraZ + env.random r.1 (-400) (-1200) }
          endPos := { l1.endPos with z := g.cameraZ + env.random (r.1 + 1) (-400) (-1200) } }
    else (l1, r.1)

end MorphingLine

/-! ## Population manager and frame driver -/

/-- The whole mutable state of the sketch: the scalar variables, the five
pools and the number of random draws made so far. -/
structure State where
  g : Globals
  organicMasses : List OrganicMass
  particleClusters : List ParticleCluster
  creepingVines : List CreepingVine
  smokeParticles : List SmokeParticle
  morphingLines : List MorphingLine
  draws : Nat

/-- The statement `pool.push(new ...)`, where `mk` is the constructor. -/
def pushNew {α : Type} (mk : Nat → α × Nat) (st : List α × Nat) : List α × Nat :=
  let r := mk st.2
  (st.1 ++ [r.1], r.2)

/-- The loop `pool.forEach(x => x.update())`. -/
def forEachUpdate {α : Type} (upd : Nat → α → α × Nat) : Nat → List α → List α × Nat
  | k, [] => ([], k)
  | k, x :: xs =>
    let r := upd k x
    let rs := forEachUpdate upd r.2 xs
    (r.1 :: rs.1, rs.2)

/-- The call `arr.map((e, i) => ...)`. -/
def mapWithIndex {α β : Type} (f : α → Nat → β) : Nat → List α → List β
  | _, [] => []
  | i, x :: xs => f x i :: mapWithIndex f (i + 1) xs

def initializeOrganicSystems (env : Env) (s : State) : State :=
  let cz := s.g.cameraZ
  let masses := forLoop MASS_COUNT (fun _ => pushNew (OrganicMass.new env cz)) ([], s.draws)
  let clusters :=
    forLoop CLUSTER_COUNT (fun _ => pushNew (ParticleCluster.new env cz)) ([], masses.2)
  let vines := forLoop VINE_COUNT (fun _ => pushNew (CreepingVine.new env cz)) ([], clusters.2)
  let smoke := forLoop SMOKE_COUNT (fun _ => pushNew (SmokeParticle.new env cz)) ([], vines.2)
  let lines := forLoop LINE_COUNT (fun _ => pushNew (MorphingLine.new env cz)) ([], smoke.2)
  { s with
    organicMasses := masses.1
    particleClusters := clusters.1
    creepingVines := vines.1
    smokeParticles := smoke.1
    morphingLines := lines.1
    draws := lines.2 }

def updateOrganicSystems (env : Env) (s : State) : State :=
  let cz := s.g.cameraZ
  let masses := forEachUpdate (OrganicMass.update env s.g) s.draws s.organicMasses
  let clusters := forEachUpdate (ParticleCluster.update env s.g) masses.2 s.particleClusters
  let vines := forEachUpdate (CreepingVine.update env s.g) clusters.2 s.creepingVines
  let smoke := forEachUpdate (SmokeParticle.update env s.g) vines.2 s.smokeParticles
  let lines := forEachUpdate (MorphingLine.update env s.g) smoke.2 s.morphingLines
  let masses1 := topUp MASS_COUNT (OrganicMass.new env cz) (masses.1, lines.2)
  let clusters1 := topUp CLUSTER_COUNT (ParticleCluster.new env cz) (clusters.1, masses1.2)
  let vines1 := topUp VINE_COUNT (CreepingVine.new env cz) (vines.1, clusters1.2)
  let smoke1 := topUp SMOKE_COUNT (SmokeParticle.new env cz) (smoke.1, vines1.2)
  let lines1 := topUp LINE_COUNT (MorphingLine.new env cz) (lines.1, smoke1.2)
  { s with
    organicMasses := masses1.1
    particleClusters := clusters1.1
    creepingVines := vines1.1
    smokeParticles := smoke1.1
    morphingLines := lines1.1
    draws := lines1.2 }

def spawnNewElements (env : Env) (type : Nat) (s : State) : State :=
  match type with
  | 0 =>
    let mass := OrganicMass.new env s.g.cameraZ s.draws
    let smoke := SmokeParticle.new env s.g.cameraZ mass.2
    { s with
      organicMasses := s.organicMasses ++ [mass.1]
      smokeParticles := s.smokeParticles ++ [smoke.1]
      draws := smoke.2 }
  | 1 =>
    let vine1 := CreepingVine.new env s.g.cameraZ s.draws
    let vine2 := CreepingVine.new env s.g.cameraZ vine1.2
    { s with
      creepingVines := s.creepingVines ++ [vine1.1] ++ [vine2.1]
      draws := vine2.2 }
  | 2 =>
    let cluster := ParticleCluster.new env s.g.cameraZ s.draws
    let line := MorphingLine.new env s.g.cameraZ cluster.2
    { s with
      particleClusters := s.particleClusters ++ [cluster.1]
      morphingLines := s.morphingLines ++ [line.1]
      draws := line.2 }
  | _ => s

/-- The test `change > 80`; `none` is the `NaN` that subtracting a missing
array element gives, for which every comparison is false. -/
def exceedsThreshold : Option ℚ → Bool
  | some change => decide (80 < change)
  | none => false

def checkForNewInstruments (env : Env) (s : State) : State :=
  let currentEnergy := [s.g.bassEnergy, s.g.midEnergy, s.g.trebleEnergy]
  let energyChanges :=
    mapWithIndex (fun e i => (s.g.lastEnergyLevels[i]?).map (fun p => e - p)) 0 currentEnergy
  let s1 := foldIdx
    (fun st i change => if exceedsThreshold change then spawnNewElements env i st else st)
    s 0 energyChanges
  { s1 with g := { s1.g with lastEnergyLevels := currentEnergy } }

/-- The branch of `draw` taken while the song plays. -/
def playingFrame (env : Env) (raw : RawEnergy) (s : State) : State :=
  let s1 := { s with g := updateGlobalAnimations (updateCameraSystem env (analyzeAudioSmooth raw s.g)) }
  checkForNewInstruments env (updateOrganicSystems env s1)

/-- The state change of `draw`: `raw` is what the FFT would return in this
frame. The object `song` that `loadSound` returned is always there, so the
test `song &&` is true. `staticCameraMode`, the lighting, the rendering and
the displays change no variable of the sketch. -/
def draw (env : Env) (raw : RawEnergy) (s : State) : State :=
  if s.g.audioContextInitialized && s.g.audioLoaded && s.g.songPlaying then
    playingFrame env raw s
  else s

/-- The state after `setup`: the initial variables and the five pools. -/
def setup (env : Env) (status : Option String) (btn : String) : State :=
  let s := initializeOrganicSystems env
    { g := Globals.initial status btn
      organicMasses := []
      particleClusters := []
      creepingVines := []
      smokeParticles := []
      morphingLines := []
      draws := 0 }
  { s with g := updateStatus "ready for audio initialization" s.g }

/-- A run of frames, one FFT reading each. -/
def runFrames (env : Env) : List RawEnergy → State → State
  | [], s => s
  | raw :: raws, s => runFrames env raws (playingFrame env raw s)

/-- Successive calls of `update()` on one entity: one call for each element
of the list, which holds the module-level variables at the time of that
call. -/
def updates {α : Type} (upd : Globals → Nat → α → α × Nat) :
    List Globals → α × Nat → α × Nat
  | [], st => st
  | g :: gs, st => updates upd gs (upd g st.2 st.1)

/-! ## The session: callbacks and events -/

/-- The success callback of `loadSound` in `preload`. Of the DOM, only the
status text and the text of the play button are modelled. -/
def soundLoaded (g : Globals) : Globals :=
  updateStatus "audio loaded" { g with audioLoaded := true }

/-- The error callback of `loadSound` in `preload`. -/
def soundLoadFailed (g : Globals) : Globals :=
  updateStatus "audio load failed" g

/-- The function `initializeAudio`; `resolved` tells whether the promise of
`userStartAudio()` resolved or was rejected. -/
def initializeAudio (resolved : Bool) (g : Globals) : Globals :=
  let g1 := updateStatus "initializing audio..." g
  if resolved then updateStatus "audio ready" { g1 with audioContextInitialized := true }
  else updateStatus "audio initialization failed" g1

/-- The song reaches its end: the library reports `song.isPlaying()` false
from then on; no variable of the sketch changes. -/
def songEnded (g : Globals) : Globals := { g with songPlaying := false }

/-- What can happen after `setup`. -/
inductive Event where
  | soundLoaded
  | soundLoadFailed
  | initializeAudio (resolved : Bool)
  | togglePlay
  | songEnded
  | draw (raw : RawEnergy)
deriving DecidableEq

def step (env : Env) : Event → State → State
  | Event.soundLoaded, s => { s with g := soundLoaded s.g }
  | Event.soundLoadFailed, s => { s with g := soundLoadFailed s.g }
  | Event.initializeAudio resolved, s => { s with g := initializeAudio resolved s.g }
  | Event.togglePlay, s => { s with g := togglePlay s.g }
  | Event.songEnded, s => { s with g := songEnded s.g }
  | Event.draw raw, s => draw env raw s

/-- The state after a sequence of events. -/
def run (env : Env) : List Event → State → State
  | [], s => s
  | e :: es, s => run env es (step env e s)

/-! ## Predicates on states -/

/-- Every pool of `t` is at least as long as the same pool of `s`. -/
def SizesLe (s t : State) : Prop :=
  s.organicMasses.length ≤ t.organicMasses.length
  ∧ s.particleClusters.length ≤ t.particleClusters.length
  ∧ s.creepingVines.length ≤ t.creepingVines.length
  ∧ s.smokeParticles.length ≤ t.smokeParticles.length
  ∧ s.morphingLines.length ≤ t.morphingLines.length

instance (s t : State) : Decidable (SizesLe s t) := by
  unfold SizesLe
  infer_instance

/-- Every pool has at least its target size. -/
def AtLeastTarget (s : State) : Prop :=
  MASS_COUNT ≤ s.organicMasses.length
  ∧ CLUSTER_COUNT ≤ s.particleClusters.length
  ∧ VINE_COUNT ≤ s.creepingVines.length
  ∧ SMOKE_COUNT ≤ s.smokeParticles.length
  ∧ LINE_COUNT ≤ s.morphingLines.length

instance (s : State) : Decidable (AtLeastTarget s) := by
  unfold AtLeastTarget
  infer_instance

/-- The depth `z` lies in the band `cameraZ - K ≤ z ≤ cameraZ - nearMin`. -/
def InDepthBand (K nearMin cameraZ z : ℚ) : Prop :=
  cameraZ - K ≤ z ∧ z ≤ cameraZ - nearMin

instance (K nearMin cameraZ z : ℚ) : Decidable (InDepthBand K nearMin cameraZ z) := by
  unfold InDepthBand
  infer_instance

/-- Every entity of every pool lies in the depth band of its kind relative
to the camera depth `cameraZ`. -/
def InBandAt (cameraZ : ℚ) (s : State) : Prop :=
  (∀ m ∈ s.organicMasses, InDepthBand 2500 200 cameraZ m.position.z)
  ∧ (∀ c ∈ s.particleClusters, InDepthBand 2200 300 cameraZ c.position.z)
  ∧ (∀ v ∈ s.creepingVines, InDepthBand 2300 400 cameraZ v.position.z)
  ∧ (∀ p ∈ s.smokeParticles, InDepthBand 3000 500 cameraZ p.position.z)
  ∧ (∀ l ∈ s.morphingLines, InDepthBand 2400 400 cameraZ l.startPos.z)

instance (cameraZ : ℚ) (s : State) : Decidable (InBandAt cameraZ s) := by
  unfold InBandAt
  infer_instance

/-- The depth-band invariant relative to the current camera depth. -/
def InBand (s : State) : Prop := InBandAt s.g.cameraZ s

/-- The three readings lie in `[0, 255]`. -/
def RawInRange (raw : RawEnergy) : Prop :=
  (0 ≤ raw.rawBass ∧ raw.rawBass ≤ 255) ∧ (0 ≤ raw.rawMid ∧ raw.rawMid ≤ 255)
  ∧ (0 ≤ raw.rawTreble ∧ raw.rawTreble ≤ 255)

/-- An event whose FFT readings, if it is a frame, lie in `[0, 255]`. -/
def EventInRange : Event → Prop
  | Event.draw raw => RawInRange raw
  | _ => True

/-! ## Repeated smoothing, half-open draws, particle offsets -/

/-- Successive calls of `analyzeAudioSmooth`, one for each reading. -/
def smoothRun : List RawEnergy → Globals → Globals
  | [], g => g
  | raw :: raws, g => smoothRun raws (analyzeAudioSmooth raw g)

/-- The smallest of a start value and the values of a list. -/
def minOf (init : ℚ) (xs : List ℚ) : ℚ := xs.foldl min init

/-- The largest of a start value and the values of a list. -/
def maxOf (init : ℚ) (xs : List ℚ) : ℚ := xs.foldl max init

/-- The assumption that `random(a, b)` with `a < b` returns a value in
`[a, b)`. -/
def RandomHalfOpen (env : Env) : Prop :=
  ∀ (k : Nat) (a b : ℚ), a < b → a ≤ env.random k a b ∧ env.random k a b < b

/-- The squared magnitude of a vector, `magSq` of p5. -/
def Vec3.magSq (v : Vec3) : ℚ := v.x * v.x + v.y * v.y + v.z * v.z

/-- The assumption that `noise` returns values in `[0, 1]`. -/
def NoiseInUnit (env : Env) : Prop := ∀ x : ℚ, 0 ≤ env.noise x ∧ env.noise x ≤ 1

/-- The assumption that `p5.Vector.random3D()` returns vectors of length 1. -/
def UnitDirections (env : Env) : Prop := ∀ k : Nat, (env.random3D k).magSq = 1

/-- One particle through successive `update()` calls of its cluster, none of
which rebuilds the cloud: the callback of `particles.forEach` runs once in
each call. An element of the list holds the module-level variables, the
number of draws made and the index of the particle at that call. -/
def moveParticleRun (env : Env) : List (Globals × Nat × Nat) → Particle → Particle
  | [], particle => particle
  | c :: cs, particle =>
    moveParticleRun env cs (ParticleCluster.moveParticle env c.1 c.2.1 c.2.2 particle).2

/-! ## Concrete inputs -/

/-- A p5 whose `random(a, b)` always returns the smaller bound. -/
def envMin : Env where
  width := 800
  height := 600
  TWO_PI := 6283 / 1000
  sin := fun _ => 0
  cos := fun _ => 1
  noise := fun _ => 1 / 2
  random := fun _ a b => min a b
  random3D := fun _ => ⟨1, 0, 0⟩

/-- A p5 whose `random(a, b)` always returns the midpoint. -/
def envMid : Env := { envMin with random := fun _ a b => (a + b) / 2 }

/-- Paused, audio ready, camera at depth 3000. -/
def gPaused : Globals :=
  { Globals.initial none "enter garden" with
    audioContextInitialized := true
    audioLoaded := true
    cameraZ := 3000 }

/-- Playing, camera at depth 3000. -/
def gPlaying : Globals := { gPaused with isPlaying := true, songPlaying := true }

/-- The cluster `new ParticleCluster()` builds at camera depth 0 when every
draw returns the smaller bound: 40 particles at depth -1800. -/
def cluster40 : ParticleCluster := (ParticleCluster.new envMin 0 0).1

/-- Readings of 100 on the three bands. -/
def raw100 : RawEnergy := ⟨100, 100, 100⟩

/-- The mass `new OrganicMass()` builds at camera depth 0 when every draw
returns the smaller bound: it lies at depth -2000. -/
def mass12 : OrganicMass := (OrganicMass.new envMin 0 0).1

/-- Playing, camera at depth 100: `mass12` is not behind its recycling
plane. -/
def gNear : Globals := { gPlaying with cameraZ := 100 }

/-- Audio context ready, sound not loaded. -/
def gUnloaded : Globals := { gPaused with audioLoaded := false }

/-- The state after `setup` in which the previous sample was `[10, 20, 30]`
and the current one is `[100, 20, 30]`. -/
def stateOnset : State :=
  { setup envMin none "enter garden" with
    g := { gPlaying with
           lastEnergyLevels := [10, 20, 30]
           bassEnergy := 100
           midEnergy := 20
           trebleEnergy := 30 } }

/-- A particle whose offset has length 150. -/
def particle150 : Particle :=
  { offset := ⟨90, 120, 0⟩, noiseOffset := 0, size := 2, opacity := 1 / 2 }

/-- Playing, camera at depth 3000, the smoothed treble at its maximum. -/
def gTreble : Globals := { gPlaying with smoothedTreble := 255 }

/-- The double 99.99999999999983, which is `0x1.8fffffffffff4p+6`: the value
at which the smoothed bass arrives, and stays, under a constant reading of
100. -/
def stalledBass : ℚ := 7036874417766388 / 2 ^ 46

/-- Playing, the smoothed bass at `stalledBass`. -/
def gStalled : Globals := { gPlaying with smoothedBass := stalledBass }

/-! ## Lemmas on smoothing and on the scalar variables -/

theorem lerp_between (prev raw : ℚ) :
    min prev raw ≤ lerp prev raw (4 / 100) ∧ lerp prev raw (4 / 100) ≤ max prev raw := by
  unfold lerp
  rcases le_total prev raw with h | h
  · rw [min_eq_left h, max_eq_right h]
    constructor <;> linarith
  · rw [min_eq_right h, max_eq_left h]
    constructor <;> linarith

theorem lerp_nonneg (prev raw : ℚ) (hp : 0 ≤ prev) (hr : 0 ≤ raw) :
    0 ≤ lerp prev raw (4 / 100) := by
  unfold lerp
  linarith

theorem updateOrganicSystems_g (env : Env) (s : State) :
    (updateOrganicSystems env s).g = s.g := rfl

theorem spawnNewElements_g (env : Env) (type : Nat) (s : State) :
    (spawnNewElements env type s).g = s.g := by
  unfold spawnNewElements
  split <;> rfl

theorem checkForNewInstruments_g (env : Env) (s : State) :
    (checkForNewInstruments env s).g =
      { s.g with lastEnergyLevels := [s.g.bassEnergy, s.g.midEnergy, s.g.trebleEnergy] } := by
  simp only [checkForNewInstruments, mapWithIndex, foldIdx]
  split_ifs <;> simp [spawnNewElements_g]

theorem playingFrame_cameraZ (env : Env) (raw : RawEnergy) (s : State) :
    (playingFrame env raw s).g.cameraZ
      = (updateCameraSystem env (analyzeAudioSmooth raw s.g)).cameraZ := by
  simp [playingFrame, checkForNewInstruments_g, updateOrganicSystems_g, updateGlobalAnimations]

theorem playingFrame_smoothedBass (env : Env) (raw : RawEnergy) (s : State) :
    (playingFrame env raw s).g.smoothedBass = lerp s.g.smoothedBass raw.rawBass (4 / 100) := by
  simp [playingFrame, checkForNewInstruments_g, updateOrganicSystems_g, updateGlobalAnimations,
    updateCameraSystem, analyzeAudioSmooth]

theorem runFrames_append (env : Env) (raws : List RawEnergy) (raw : RawEnergy) (s : State) :
    runFrames env (raws ++ [raw]) s = playingFrame env raw (runFrames env raws s) := by
  induction raws generalizing s with
  | nil => rfl
  | cons r rs ih => simp [runFrames, ih]

theorem runFrames_smoothedBass_nonneg (env : Env) (raws : List RawEnergy) (s : State)
    (hs : 0 ≤ s.g.smoothedBass) (hraws : ∀ raw ∈ raws, 0 ≤ raw.rawBass) :
    0 ≤ (runFrames env raws s).g.smoothedBass := by
  induction raws generalizing s with
  | nil => exact hs
  | cons r rs ih =>
    simp only [runFrames]
    apply ih
    · rw [playingFrame_smoothedBass]
      exact lerp_nonneg _ _ hs (hraws r (List.mem_cons_self _ _))
    · intro raw hraw
      exact hraws raw (List.mem_cons_of_mem _ hraw)

/-! ## Lemmas on the loops -/

theorem forLoop_zero {σ : Type} (body : Nat → σ → σ) (st : σ) : forLoop 0 body st = st := rfl

theorem forLoop_succ {σ : Type} (n : Nat) (body : Nat → σ → σ) (st : σ) :
    forLoop (n + 1) body st = body n (forLoop n body st) := by
  simp [forLoop, List.range_succ, List.foldl_append]

/-- A property the loop body keeps holds after the loop. -/
theorem forLoop_invariant {σ : Type} (P : σ → Prop) (body : Nat → σ → σ)
    (hbody : ∀ i st, P st → P (body i st)) (n : Nat) (st : σ) (h : P st) :
    P (forLoop n body st) := by
  induction n with
  | zero => exact h
  | succ n ih =>
    rw [forLoop_succ]
    exact hbody n _ ih

/-- A loop whose body raises a measure by one raises it by the number of
turns. -/
theorem forLoop_count {σ : Type} (len : σ → Nat) (body : Nat → σ → σ)
    (hbody : ∀ i st, len (body i st) = len st + 1) (n : Nat) (st : σ) :
    len (forLoop n body st) = len st + n := by
  induction n with
  | zero => rfl
  | succ n ih =>
    rw [forLoop_succ, hbody, ih]
    omega

theorem forEachIdx_length {α σ : Type} (f : σ → Nat → α → σ × α) (st : σ) (i : Nat)
    (xs : List α) : (forEachIdx f st i xs).2.length = xs.length := by
  induction xs generalizing st i with
  | nil => rfl
  | cons x xs ih => simp [forEachIdx, ih]

theorem random_bounds (env : Env) (hr : RandomInRange env) (k : Nat) (a b : ℚ) (hba : b ≤ a) :
    b ≤ env.random k a b ∧ env.random k a b ≤ a := by
  have h := hr k a b
  rwa [min_eq_right hba, max_eq_left hba] at h

/-! ## Lemmas on the entities -/

namespace OrganicMass

theorem generateOrganicShape_position (env : Env) (k : Nat) (m : OrganicMass) :
    (generateOrganicShape env k m).1.position = m.position := by
  unfold generateOrganicShape
  apply forLoop_invariant (fun st : OrganicMass × Nat => st.1.position = m.position)
  · intro i st h
    exact h
  · rfl

theorem generateOrganicShape_length (env : Env) (k : Nat) (m : OrganicMass) :
    (generateOrganicShape env k m).1.vertices.length = ⌊env.random k 12 20⌋.toNat := by
  unfold generateOrganicShape
  have h := forLoop_count (fun st : OrganicMass × Nat => st.1.vertices.length)
    (pushVertex env ⌊env.random k 12 20⌋) (fun i st => by simp [pushVertex])
    ⌊env.random k 12 20⌋.toNat ({ m with vertices := [], noiseOffsets := [] }, k + 1)
  simpa using h

theorem mass_update_paused (env : Env) (g : Globals) (k : Nat) (m : OrganicMass)
    (hp : g.isPlaying = false) : update env g k m = (m, k) := by
  simp [update, hp]

theorem mass_update_recycle (env : Env) (g : Globals) (k : Nat) (m : OrganicMass)
    (hp : g.isPlaying = true) (hz : m.position.z < g.cameraZ - 2500) :
    (update env g k m).1.position.z = g.cameraZ + env.random k (-200) (-1500)
    ∧ (update env g k m).1.vertices.length = ⌊env.random (k + 1) 12 20⌋.toNat := by
  simp only [update, hp, Bool.not_true, Bool.false_eq_true, if_false, hz, if_true]
  exact ⟨by rw [generateOrganicShape_position], generateOrganicShape_length _ _ _⟩

theorem mass_update_keep (env : Env) (g : Globals) (k : Nat) (m : OrganicMass)
    (hz : ¬ m.position.z < g.cameraZ - 2500) :
    (update env g k m).1.position = m.position
    ∧ (update env g k m).1.vertices.length = m.vertices.length := by
  unfold update
  by_cases hp : g.isPlaying = true
  · simp only [hp, Bool.not_true, Bool.false_eq_true, if_false, hz]
    exact ⟨trivial, forEachIdx_length _ _ _ _⟩
  · simp [hp]

end OrganicMass

namespace ParticleCluster

theorem generateParticleCloud_position (env : Env) (k : Nat) (c : ParticleCluster) :
    (generateParticleCloud env k c).1.position = c.position := by
  unfold generateParticleCloud
  apply forLoop_invariant (fun st : ParticleCluster × Nat => st.1.position = c.position)
  · intro i st h
    exact h
  · rfl

theorem generateParticleCloud_baseCount (env : Env) (k : Nat) (c : ParticleCluster) :
    (generateParticleCloud env k c).1.baseCount = c.baseCount := by
  unfold generateParticleCloud
  apply forLoop_invariant (fun st : ParticleCluster × Nat => st.1.baseCount = c.baseCount)
  · intro i st h
    exact h
  · rfl

theorem generateParticleCloud_length (env : Env) (k : Nat) (c : ParticleCluster) :
    (generateParticleCloud env k c).1.particles.length = c.baseCount.toNat := by
  unfold generateParticleCloud
  have h := forLoop_count (fun st : ParticleCluster × Nat => st.1.particles.length)
    (pushParticle env) (fun i st => by simp [pushParticle])
    c.baseCount.toNat ({ c with particles := [] }, k)
  simpa using h

theorem cluster_update_paused (env : Env) (g : Globals) (k : Nat) (c : ParticleCluster)
    (hp : g.isPlaying = false) : update env g k c = (c, k) := by
  simp [update, hp]

theorem cluster_update_recycle (env : Env) (g : Globals) (k : Nat) (c : ParticleCluster)
    (hp : g.isPlaying = true) (hz : c.position.z < g.cameraZ - 2200) :
    (∃ j, (update env g k c).1.position.z = g.cameraZ + env.random j (-300) (-1200))
    ∧ (update env g k c).1.particles.length = c.baseCount.toNat
    ∧ (update env g k c).1.baseCount = c.baseCount := by
  simp only [update, hp, Bool.not_true, Bool.false_eq_true, if_false, hz, if_true]
  exact ⟨⟨_, by rw [generateParticleCloud_position]⟩, generateParticleCloud_length _ _ _,
    generateParticleCloud_baseCount _ _ _⟩

theorem cluster_update_keep (env : Env) (g : Globals) (k : Nat) (c : ParticleCluster)
    (hz : ¬ c.position.z < g.cameraZ - 2200) :
    (update env g k c).1.position = c.position
    ∧ (update env g k c).1.particles.length = c.particles.length
    ∧ (update env g k c).1.baseCount = c.baseCount := by
  unfold update
  by_cases hp : g.isPlaying = true
  · simp only [hp, Bool.not_true, Bool.false_eq_true, if_false, hz]
    exact ⟨trivial, forEachIdx_length _ _ _ _, trivial⟩
  · simp [hp]

end ParticleCluster

namespace CreepingVine

theorem initializeVine_position (env : Env) (k : Nat) (v : CreepingVine) :
    (initializeVine env k v).1.position = v.position := by
  unfold initializeVine
  apply forLoop_invariant (fun st : CreepingVine × Vec3 × Nat => st.1.position = v.position)
  · intro i st h
    exact h
  · rfl

theorem initializeVine_maxSegments (env : Env) (k : Nat) (v : CreepingVine) :
    (initializeVine env k v).1.maxSegments = v.maxSegments := by
  unfold initializeVine
  apply forLoop_invariant
    (fun st : CreepingVine × Vec3 × Nat => st.1.maxSegments = v.maxSegments)
  · intro i st h
    exact h
  · rfl

theorem initializeVine_length (env : Env) (k : Nat) (v : CreepingVine) :
    (initializeVine env k v).1.segments.length = v.maxSegments.toNat := by
  unfold initializeVine
  have h := forLoop_count (fun st : CreepingVine × Vec3 × Nat => st.1.segments.length)
    (pushSegment env) (fun i st => by simp [pushSegment])
    v.maxSegments.toNat ({ v with segments := [] }, ⟨0, 0, 0⟩, k)
  simpa using h

theorem vine_update_paused (env : Env) (g : Globals) (k : Nat) (v : CreepingVine)
    (hp : g.isPlaying = false) : update env g k v = (v, k) := by
  simp [update, hp]

theorem vine_update_recycle (env : Env) (g : Globals) (k : Nat) (v : CreepingVine)
    (hp : g.isPlaying = true) (hz : v.position.z < g.cameraZ - 2300) :
    (update env g k v).1.position.z = g.cameraZ + env.random k (-400) (-1200)
    ∧ (update env g k v).1.segments.length = v.maxSegments.toNat
    ∧ (update env g k v).1.maxSegments = v.maxSegments := by
  simp only [update, hp, Bool.not_true, Bool.false_eq_true, if_false, hz, if_true]
  exact ⟨by rw [initializeVine_position], initializeVine_length _ _ _,
    initializeVine_maxSegments _ _ _⟩

theorem vine_update_keep (env : Env) (g : Globals) (k : Nat) (v : CreepingVine)
    (hz : ¬ v.position.z < g.cameraZ - 2300) :
    (update env g k v).1.position = v.position
    ∧ (update env g k v).1.segments.length = v.segments.length
    ∧ (update env g k v).1.maxSegments = v.maxSegments := by
  unfold update
  by_cases hp : g.isPlaying = true
  · simp only [hp, Bool.not_true, Bool.false_eq_true, if_false, hz]
    exact ⟨trivial, forEachIdx_length _ _ _ _, trivial⟩
  · simp [hp]

end CreepingVine

namespace SmokeParticle

theorem smoke_update_paused (env : Env) (g : Globals) (k : Nat) (p : SmokeParticle)
    (hp : g.isPlaying = false) : update env g k p = (p, k) := by
  simp [update, hp]

theorem smoke_update_recycle (env : Env) (g : Globals) (k : Nat) (p : SmokeParticle)
    (hp : g.isPlaying = true) (hz : p.position.z < g.cameraZ - 3000) :
    (update env g k p).1.position.z = g.cameraZ + env.random (k + 1) (-500) (-2000) := by
  simp only [update, hp, Bool.not_true, Bool.false_eq_true, if_false, hz, if_true]

theorem smoke_update_keep (env : Env) (g : Globals) (k : Nat) (p : SmokeParticle)
    (hz : ¬ p.position.z < g.cameraZ - 3000) :
    (update env g k p).1.position.z = p.position.z := by
  unfold update
  by_cases hp : g.isPlaying = true
  · simp only [hp, Bool.not_true, Bool.false_eq_true, if_false, hz]
  · simp [hp]

end SmokeParticle

namespace MorphingLine

theorem generateControlPoints_startPos (env : Env) (k : Nat) (l : MorphingLine) :
    (generateControlPoints env k l).1.startPos = l.startPos := by
  unfold generateControlPoints
  apply forLoop_invariant (fun st : MorphingLine × Nat => st.1.startPos = l.startPos)
  · intro i st h
    exact h
  · rfl

theorem generateControlPoints_length (env : Env) (k : Nat) (l : MorphingLine) :
    (generateControlPoints env k l).1.controlPoints.length
      = (⌊env.random k 8 16⌋ + 1).toNat := by
  unfold generateControlPoints
  have h := forLoop_count (fun st : MorphingLine × Nat => st.1.controlPoints.length)
    (pushControlPoint env ⌊env.random k 8 16⌋) (fun i st => by simp [pushControlPoint])
    (⌊env.random k 8 16⌋ + 1).toNat ({ l with controlPoints := [] }, k + 1)
  simpa using h

theorem line_update_paused (env : Env) (g : Globals) (k : Nat) (l : MorphingLine)
    (hp : g.isPlaying = false) : update env g k l = (l, k) := by
  simp [update, hp]

theorem line_update_recycle (env : Env) (g : Globals) (k : Nat) (l : MorphingLine)
    (hp : g.isPlaying = true) (hz : l.startPos.z < g.cameraZ - 2400) :
    ∃ j, (update env g k l).1.startPos.z = g.cameraZ + env.random j (-400) (-1200)
      ∧ (update env g k l).1.controlPoints.length = (⌊env.random (j + 2) 8 16⌋ + 1).toNat := by
  simp only [update, hp, Bool.not_true, Bool.false_eq_true, if_false, hz, if_true]
  exact ⟨_, by rw [generateControlPoints_startPos], generateControlPoints_length _ _ _⟩

theorem line_update_keep (env : Env) (g : Globals) (k : Nat) (l : MorphingLine)
    (hz : ¬ l.startPos.z < g.cameraZ - 2400) :
    (update env g k l).1.startPos = l.startPos
    ∧ (update env g k l).1.controlPoints.length = l.controlPoints.length := by
  unfold update
  by_cases hp : g.isPlaying = true
  · simp only [hp, Bool.not_true, Bool.false_eq_true, if_false, hz]
    exact ⟨trivial, forEachIdx_length _ _ _ _⟩
  · simp [hp]

end MorphingLine

/-! ## Lemmas on the draws a recycle makes -/

theorem forEachIdx_draws {α : Type} (f : Nat → Nat → α → Nat × α)
    (hf : ∀ k i x, (f k i x).1 = k + 1) (k i : Nat) (xs : List α) :
    (forEachIdx f k i xs).1 = k + xs.length := by
  induction xs generalizing k i with
  | nil => rfl
  | cons x xs ih =>
    simp only [forEachIdx, ih, hf, List.length_cons]
    omega

theorem MorphingLine.line_update_recycle_count (env : Env) (g : Globals) (k : Nat) (l : MorphingLine)
    (hp : g.isPlaying = true) (hz : l.startPos.z < g.cameraZ - 2400) :
    (MorphingLine.update env g k l).1.controlPoints.length
      = (⌊env.random (k + l.controlPoints.length + 2) 8 16⌋ + 1).toNat := by
  simp only [MorphingLine.update, hp, Bool.not_true, Bool.false_eq_true, if_false, hz, if_true]
  rw [MorphingLine.generateControlPoints_length, forEachIdx_draws]
  intro k1 i x
  rfl

theorem ParticleCluster.cluster_new_length (env : Env) (cameraZ : ℚ) (k : Nat) :
    (ParticleCluster.new env cameraZ k).1.particles.length = ⌊env.random (k + 3) 40 80⌋.toNat
    ∧ (ParticleCluster.new env cameraZ k).1.baseCount = ⌊env.random (k + 3) 40 80⌋
    ∧ (ParticleCluster.new env cameraZ k).1.position.z
        = cameraZ + env.random (k + 2) (-500) (-1800) := by
  unfold ParticleCluster.new
  exact ⟨ParticleCluster.generateParticleCloud_length _ _ _,
    ParticleCluster.generateParticleCloud_baseCount _ _ _,
    by rw [ParticleCluster.generateParticleCloud_position]⟩

theorem CreepingVine.vine_new_length (env : Env) (cameraZ : ℚ) (k : Nat) :
    (CreepingVine.new env cameraZ k).1.segments.length = ⌊env.random (k + 3) 15 30⌋.toNat
    ∧ (CreepingVine.new env cameraZ k).1.maxSegments = ⌊env.random (k + 3) 15 30⌋
    ∧ (CreepingVine.new env cameraZ k).1.position.z
        = cameraZ + env.random (k + 2) (-600) (-1800) := by
  unfold CreepingVine.new
  exact ⟨CreepingVine.initializeVine_length _ _ _,
    CreepingVine.initializeVine_maxSegments _ _ _,
    by rw [CreepingVine.initializeVine_position]⟩

theorem cluster40_facts :
    cluster40.particles.length = 40 ∧ cluster40.baseCount = 40
    ∧ cluster40.position.z = -1800 := by
  have h := ParticleCluster.cluster_new_length envMin 0 0
  have hf : ⌊(min 40 80 : ℚ)⌋ = 40 := by norm_num
  refine ⟨?_, ?_, ?_⟩
  · rw [cluster40, h.1]
    simp only [envMin, hf]
    rfl
  · rw [cluster40, h.2.1]
    simp only [envMin, hf]
  · rw [cluster40, h.2.2]
    simp only [envMin]
    norm_num

/-! ## Lemmas on repeated updates -/

/-- Calls that each keep a property of the entity keep it together. -/
theorem updates_invariant {α : Type} (upd : Globals → Nat → α → α × Nat) (P : α → Prop)
    (gs : List Globals) (hstep : ∀ g ∈ gs, ∀ k x, P x → P (upd g k x).1)
    (st : α × Nat) (h : P st.1) : P (updates upd gs st).1 := by
  induction gs generalizing st with
  | nil => exact h
  | cons g gs ih =>
    simp only [updates]
    apply ih
    · intro g1 hg1
      exact hstep g1 (List.mem_cons_of_mem _ hg1)
    · exact hstep g (List.mem_cons_self _ _) st.2 st.1 h

/-- Calls that each change nothing change nothing together. -/
theorem updates_fixed {α : Type} (upd : Globals → Nat → α → α × Nat)
    (gs : List Globals) (hstep : ∀ g ∈ gs, ∀ k x, upd g k x = (x, k))
    (st : α × Nat) : updates upd gs st = st := by
  induction gs generalizing st with
  | nil => rfl
  | cons g gs ih =>
    simp only [updates]
    rw [hstep g (List.mem_cons_self _ _)]
    exact ih (fun g1 hg1 => hstep g1 (List.mem_cons_of_mem _ hg1)) st

/-! ## Lemmas on pool sizes -/

theorem pushNew_length {α : Type} (mk : Nat → α × Nat) (st : List α × Nat) :
    (pushNew mk st).1.length = st.1.length + 1 := by
  simp [pushNew]

theorem forLoop_pushNew_length {α : Type} (mk : Nat → α × Nat) (n : Nat) (st : List α × Nat) :
    (forLoop n (fun _ => pushNew mk) st).1.length = st.1.length + n :=
  forLoop_count (fun st : List α × Nat => st.1.length) (fun _ => pushNew mk)
    (fun _ st => pushNew_length mk st) n st

theorem forEachUpdate_length {α : Type} (upd : Nat → α → α × Nat) (k : Nat) (xs : List α) :
    (forEachUpdate upd k xs).1.length = xs.length := by
  induction xs generalizing k with
  | nil => rfl
  | cons x xs ih => simp [forEachUpdate, ih]

/-- With enough fuel the top-up loop stops because its condition is false:
the pool then has `max length target` members. -/
theorem topUpLoop_length {α : Type} (target : Nat) (mk : Nat → α × Nat) (fuel : Nat)
    (st : List α × Nat) (hfuel : target - st.1.length ≤ fuel) :
    (topUpLoop target mk fuel st).1.length = max st.1.length target := by
  induction fuel generalizing st with
  | zero =>
    simp only [topUpLoop]
    omega
  | succ fuel ih =>
    simp only [topUpLoop]
    split_ifs with h
    · rw [ih]
      · simp only [List.length_append, List.length_singleton]
        omega
      · simp only [List.length_append, List.length_singleton]
        omega
    · omega

theorem topUp_length {α : Type} (target : Nat) (mk : Nat → α × Nat) (st : List α × Nat) :
    (topUp target mk st).1.length = max st.1.length target :=
  topUpLoop_length target mk _ st (le_refl _)

theorem initializeOrganicSystems_sizes (env : Env) (s : State) :
    (initializeOrganicSystems env s).organicMasses.length = 8
    ∧ (initializeOrganicSystems env s).particleClusters.length = 12
    ∧ (initializeOrganicSystems env s).creepingVines.length = 6
    ∧ (initializeOrganicSystems env s).smokeParticles.length = 40
    ∧ (initializeOrganicSystems env s).morphingLines.length = 8 := by
  simp only [initializeOrganicSystems, forLoop_pushNew_length, MASS_COUNT, CLUSTER_COUNT,
    VINE_COUNT, SMOKE_COUNT, LINE_COUNT, List.length_nil, Nat.zero_add, and_self]

theorem updateOrganicSystems_sizes (env : Env) (s : State) :
    (updateOrganicSystems env s).organicMasses.length = max s.organicMasses.length MASS_COUNT
    ∧ (updateOrganicSystems env s).particleClusters.length
        = max s.particleClusters.length CLUSTER_COUNT
    ∧ (updateOrganicSystems env s).creepingVines.length = max s.creepingVines.length VINE_COUNT
    ∧ (updateOrganicSystems env s).smokeParticles.length
        = max s.smokeParticles.length SMOKE_COUNT
    ∧ (updateOrganicSystems env s).morphingLines.length
        = max s.morphingLines.length LINE_COUNT := by
  simp only [updateOrganicSystems, topUp_length, forEachUpdate_length, and_self]

theorem SizesLe_refl (s : State) : SizesLe s s :=
  ⟨le_refl _, le_refl _, le_refl _, le_refl _, le_refl _⟩

theorem SizesLe_trans {s t u : State} (h1 : SizesLe s t) (h2 : SizesLe t u) : SizesLe s u :=
  ⟨h1.1.trans h2.1, h1.2.1.trans h2.2.1, h1.2.2.1.trans h2.2.2.1,
    h1.2.2.2.1.trans h2.2.2.2.1, h1.2.2.2.2.trans h2.2.2.2.2⟩

theorem spawnNewElements_sizes (env : Env) (type : Nat) (s : State) :
    SizesLe s (spawnNewElements env type s) := by
  unfold spawnNewElements SizesLe
  split <;> simp

theorem foldIdx_invariant {α σ : Type} (P : σ → Prop) (f : σ → Nat → α → σ)
    (hf : ∀ st i x, P st → P (f st i x)) (st : σ) (i : Nat) (xs : List α) (h : P st) :
    P (foldIdx f st i xs) := by
  induction xs generalizing st i with
  | nil => exact h
  | cons x xs ih =>
    simp only [foldIdx]
    exact ih _ _ (hf st i x h)

theorem checkForNewInstruments_sizes (env : Env) (s : State) :
    SizesLe s (checkForNewInstruments env s) := by
  unfold checkForNewInstruments
  have h := foldIdx_invariant (fun st : State => SizesLe s st)
    (fun st i change => if exceedsThreshold change then spawnNewElements env i st else st)
    (fun st i x hst => by
      show SizesLe s (if exceedsThreshold x then spawnNewElements env i st else st)
      split_ifs
      · exact SizesLe_trans hst (spawnNewElements_sizes env i st)
      · exact hst)
    s 0
    (mapWithIndex (fun e i => (s.g.lastEnergyLevels[i]?).map (fun p => e - p)) 0
      [s.g.bassEnergy, s.g.midEnergy, s.g.trebleEnergy])
    (SizesLe_refl s)
  exact h

theorem updateOrganicSystems_sizesLe (env : Env) (s : State) :
    SizesLe s (updateOrganicSystems env s) := by
  have h := updateOrganicSystems_sizes env s
  unfold SizesLe
  rw [h.1, h.2.1, h.2.2.1, h.2.2.2.1, h.2.2.2.2]
  exact ⟨le_max_left _ _, le_max_left _ _, le_max_left _ _, le_max_left _ _, le_max_left _ _⟩

theorem playingFrame_sizesLe (env : Env) (raw : RawEnergy) (s : State) :
    SizesLe s (playingFrame env raw s) := by
  unfold playingFrame
  exact SizesLe_trans
    (updateOrganicSystems_sizesLe env
      { s with
        g := updateGlobalAnimations (updateCameraSystem env (analyzeAudioSmooth raw s.g)) })
    (checkForNewInstruments_sizes env _)

theorem draw_sizesLe (env : Env) (raw : RawEnergy) (s : State) :
    SizesLe s (draw env raw s) := by
  unfold draw
  split_ifs
  · exact playingFrame_sizesLe env raw s
  · exact SizesLe_refl s

theorem step_sizesLe (env : Env) (e : Event) (s : State) : SizesLe s (step env e s) := by
  cases e with
  | draw raw => exact draw_sizesLe env raw s
  | _ => exact SizesLe_refl s

theorem run_sizesLe (env : Env) (es : List Event) (s : State) : SizesLe s (run env es s) := by
  induction es generalizing s with
  | nil => exact SizesLe_refl s
  | cons e es ih => exact SizesLe_trans (step_sizesLe env e s) (ih _)

theorem runFrames_sizesLe (env : Env) (raws : List RawEnergy) (s : State) :
    SizesLe s (runFrames env raws s) := by
  induction raws generalizing s with
  | nil => exact SizesLe_refl s
  | cons r rs ih => exact SizesLe_trans (playingFrame_sizesLe env r s) (ih _)

theorem setup_atLeastTarget (env : Env) (status : Option String) (btn : String) :
    AtLeastTarget (setup env status btn) := by
  have h := initializeOrganicSystems_sizes env
    { g := Globals.initial status btn, organicMasses := [], particleClusters := [],
      creepingVines := [], smokeParticles := [], morphingLines := [], draws := 0 }
  unfold AtLeastTarget setup
  simp only [h.1, h.2.1, h.2.2.1, h.2.2.2.1, h.2.2.2.2, MASS_COUNT, CLUSTER_COUNT, VINE_COUNT,
    SMOKE_COUNT, LINE_COUNT, le_refl, and_self]

theorem AtLeastTarget_of_sizesLe {s t : State} (h : AtLeastTarget s) (hst : SizesLe s t) :
    AtLeastTarget t :=
  ⟨h.1.trans hst.1, h.2.1.trans hst.2.1, h.2.2.1.trans hst.2.2.1,
    h.2.2.2.1.trans hst.2.2.2.1, h.2.2.2.2.trans hst.2.2.2.2⟩

/-! ## Lemmas on the depth bands -/

theorem mass_new_band (env : Env) (hr : RandomInRange env) (cameraZ : ℚ) (k : Nat) :
    InDepthBand 2500 200 cameraZ (OrganicMass.new env cameraZ k).1.position.z := by
  unfold OrganicMass.new InDepthBand
  rw [OrganicMass.generateOrganicShape_position]
  have h := random_bounds env hr (k + 2) (-800) (-2000) (by norm_num)
  constructor <;> simp only <;> linarith [h.1, h.2]

theorem cluster_new_band (env : Env) (hr : RandomInRange env) (cameraZ : ℚ) (k : Nat) :
    InDepthBand 2200 300 cameraZ (ParticleCluster.new env cameraZ k).1.position.z := by
  unfold ParticleCluster.new InDepthBand
  rw [ParticleCluster.generateParticleCloud_position]
  have h := random_bounds env hr (k + 2) (-500) (-1800) (by norm_num)
  constructor <;> simp only <;> linarith [h.1, h.2]

theorem vine_new_band (env : Env) (hr : RandomInRange env) (cameraZ : ℚ) (k : Nat) :
    InDepthBand 2300 400 cameraZ (CreepingVine.new env cameraZ k).1.position.z := by
  unfold CreepingVine.new InDepthBand
  rw [CreepingVine.initializeVine_position]
  have h := random_bounds env hr (k + 2) (-600) (-1800) (by norm_num)
  constructor <;> simp only <;> linarith [h.1, h.2]

theorem smoke_new_band (env : Env) (hr : RandomInRange env) (cameraZ : ℚ) (k : Nat) :
    InDepthBand 3000 500 cameraZ (SmokeParticle.new env cameraZ k).1.position.z := by
  unfold SmokeParticle.new InDepthBand
  have h := random_bounds env hr (k + 2) (-1000) (-2500) (by norm_num)
  constructor <;> simp only <;> linarith [h.1, h.2]

theorem line_new_band (env : Env) (hr : RandomInRange env) (cameraZ : ℚ) (k : Nat) :
    InDepthBand 2400 400 cameraZ (MorphingLine.new env cameraZ k).1.startPos.z := by
  unfold MorphingLine.new InDepthBand
  rw [MorphingLine.generateControlPoints_startPos]
  have h := random_bounds env hr (k + 2) (-800) (-1800) (by norm_num)
  constructor <;> simp only <;> linarith [h.1, h.2]

theorem mass_update_band (env : Env) (hr : RandomInRange env) (g : Globals)
    (hplay : g.isPlaying = true) (k : Nat) (m : OrganicMass)
    (hm : m.position.z ≤ g.cameraZ - 200) :
    InDepthBand 2500 200 g.cameraZ (OrganicMass.update env g k m).1.position.z := by
  unfold InDepthBand
  by_cases hz : m.position.z < g.cameraZ - 2500
  · rw [(OrganicMass.mass_update_recycle env g k m hplay hz).1]
    have h := random_bounds env hr k (-200) (-1500) (by norm_num)
    constructor <;> linarith [h.1, h.2]
  · rw [(OrganicMass.mass_update_keep env g k m hz).1]
    exact ⟨not_lt.mp hz, hm⟩

theorem cluster_update_band (env : Env) (hr : RandomInRange env) (g : Globals)
    (hplay : g.isPlaying = true) (k : Nat) (c : ParticleCluster)
    (hc : c.position.z ≤ g.cameraZ - 300) :
    InDepthBand 2200 300 g.cameraZ (ParticleCluster.update env g k c).1.position.z := by
  unfold InDepthBand
  by_cases hz : c.position.z < g.cameraZ - 2200
  · obtain ⟨j, hj⟩ := (ParticleCluster.cluster_update_recycle env g k c hplay hz).1
    rw [hj]
    have h := random_bounds env hr j (-300) (-1200) (by norm_num)
    constructor <;> linarith [h.1, h.2]
  · rw [(ParticleCluster.cluster_update_keep env g k c hz).1]
    exact ⟨not_lt.mp hz, hc⟩

theorem vine_update_band (env : Env) (hr : RandomInRange env) (g : Globals)
    (hplay : g.isPlaying = true) (k : Nat) (v : CreepingVine)
    (hv : v.position.z ≤ g.cameraZ - 400) :
    InDepthBand 2300 400 g.cameraZ (CreepingVine.update env g k v).1.position.z := by
  unfold InDepthBand
  by_cases hz : v.position.z < g.cameraZ - 2300
  · rw [(CreepingVine.vine_update_recycle env g k v hplay hz).1]
    have h := random_bounds env hr k (-400) (-1200) (by norm_num)
    constructor <;> linarith [h.1, h.2]
  · rw [(CreepingVine.vine_update_keep env g k v hz).1]
    exact ⟨not_lt.mp hz, hv⟩

theorem smoke_update_band (env : Env) (hr : RandomInRange env) (g : Globals)
    (hplay : g.isPlaying = true) (k : Nat) (p : SmokeParticle)
    (hp : p.position.z ≤ g.cameraZ - 500) :
    InDepthBand 3000 500 g.cameraZ (SmokeParticle.update env g k p).1.position.z := by
  unfold InDepthBand
  by_cases hz : p.position.z < g.cameraZ - 3000
  · rw [SmokeParticle.smoke_update_recycle env g k p hplay hz]
    have h := random_bounds env hr (k + 1) (-500) (-2000) (by norm_num)
    constructor <;> linarith [h.1, h.2]
  · rw [SmokeParticle.smoke_update_keep env g k p hz]
    exact ⟨not_lt.mp hz, hp⟩

theorem line_update_band (env : Env) (hr : RandomInRange env) (g : Globals)
    (hplay : g.isPlaying = true) (k : Nat) (l : MorphingLine)
    (hl : l.startPos.z ≤ g.cameraZ - 400) :
    InDepthBand 2400 400 g.cameraZ (MorphingLine.update env g k l).1.startPos.z := by
  unfold InDepthBand
  by_cases hz : l.startPos.z < g.cameraZ - 2400
  · obtain ⟨j, hj, _⟩ := MorphingLine.line_update_recycle env g k l hplay hz
    rw [hj]
    have h := random_bounds env hr j (-400) (-1200) (by norm_num)
    constructor <;> linarith [h.1, h.2]
  · rw [(MorphingLine.line_update_keep env g k l hz).1]
    exact ⟨not_lt.mp hz, hl⟩

theorem pushNew_all {α : Type} (P : α → Prop) (mk : Nat → α × Nat) (hmk : ∀ k, P (mk k).1)
    (st : List α × Nat) (h : ∀ x ∈ st.1, P x) : ∀ x ∈ (pushNew mk st).1, P x := by
  intro x hx
  simp only [pushNew, List.mem_append, List.mem_singleton] at hx
  rcases hx with hx | hx
  · exact h x hx
  · rw [hx]
    exact hmk _

theorem forLoop_pushNew_all {α : Type} (P : α → Prop) (mk : Nat → α × Nat)
    (hmk : ∀ k, P (mk k).1) (n : Nat) (st : List α × Nat) (h : ∀ x ∈ st.1, P x) :
    ∀ x ∈ (forLoop n (fun _ => pushNew mk) st).1, P x :=
  forLoop_invariant (fun st : List α × Nat => ∀ x ∈ st.1, P x) (fun _ => pushNew mk)
    (fun _ st hst => pushNew_all P mk hmk st hst) n st h

theorem topUpLoop_all {α : Type} (P : α → Prop) (target : Nat) (mk : Nat → α × Nat)
    (hmk : ∀ k, P (mk k).1) (fuel : Nat) (st : List α × Nat) (h : ∀ x ∈ st.1, P x) :
    ∀ x ∈ (topUpLoop target mk fuel st).1, P x := by
  induction fuel generalizing st with
  | zero => exact h
  | succ fuel ih =>
    simp only [topUpLoop]
    split_ifs
    · exact ih _ (pushNew_all P mk hmk st h)
    · exact h

theorem topUp_all {α : Type} (P : α → Prop) (target : Nat) (mk : Nat → α × Nat)
    (hmk : ∀ k, P (mk k).1) (st : List α × Nat) (h : ∀ x ∈ st.1, P x) :
    ∀ x ∈ (topUp target mk st).1, P x :=
  topUpLoop_all P target mk hmk _ st h

theorem forEachUpdate_all {α : Type} (P Q : α → Prop) (upd : Nat → α → α × Nat)
    (hupd : ∀ k x, P x → Q (upd k x).1) (k : Nat) (xs : List α) (h : ∀ x ∈ xs, P x) :
    ∀ y ∈ (forEachUpdate upd k xs).1, Q y := by
  induction xs generalizing k with
  | nil =>
    intro y hy
    simp [forEachUpdate] at hy
  | cons x xs ih =>
    intro y hy
    simp only [forEachUpdate, List.mem_cons] at hy
    rcases hy with hy | hy
    · rw [hy]
      exact hupd k x (h x (List.mem_cons_self _ _))
    · exact ih _ (fun z hz => h z (List.mem_cons_of_mem _ hz)) y hy

/-! ## Lemmas on the depth-band invariant of the state -/

theorem all_append_singleton {α : Type} (P : α → Prop) (xs : List α) (x : α)
    (h : ∀ y ∈ xs, P y) (hx : P x) : ∀ y ∈ xs ++ [x], P y := by
  intro y hy
  simp only [List.mem_append, List.mem_singleton] at hy
  rcases hy with hy | hy
  · exact h y hy
  · rw [hy]
    exact hx

theorem initializeOrganicSystems_inBand (env : Env) (hr : RandomInRange env) (s : State) :
    InBandAt s.g.cameraZ (initializeOrganicSystems env s) := by
  unfold InBandAt initializeOrganicSystems
  refine ⟨?_, ?_, ?_, ?_, ?_⟩
  · exact forLoop_pushNew_all (fun m : OrganicMass => InDepthBand 2500 200 s.g.cameraZ m.position.z)
      _ (mass_new_band env hr _) _ _ (by simp)
  · exact forLoop_pushNew_all
      (fun c : ParticleCluster => InDepthBand 2200 300 s.g.cameraZ c.position.z)
      _ (cluster_new_band env hr _) _ _ (by simp)
  · exact forLoop_pushNew_all
      (fun v : CreepingVine => InDepthBand 2300 400 s.g.cameraZ v.position.z)
      _ (vine_new_band env hr _) _ _ (by simp)
  · exact forLoop_pushNew_all
      (fun p : SmokeParticle => InDepthBand 3000 500 s.g.cameraZ p.position.z)
      _ (smoke_new_band env hr _) _ _ (by simp)
  · exact forLoop_pushNew_all
      (fun l : MorphingLine => InDepthBand 2400 400 s.g.cameraZ l.startPos.z)
      _ (line_new_band env hr _) _ _ (by simp)

theorem spawnNewElements_inBand (env : Env) (hr : RandomInRange env) (type : Nat) (s : State)
    (h : InBandAt s.g.cameraZ s) : InBandAt s.g.cameraZ (spawnNewElements env type s) := by
  unfold spawnNewElements
  split
  · exact ⟨all_append_singleton _ _ _ h.1 (mass_new_band env hr _ _), h.2.1, h.2.2.1,
      all_append_singleton _ _ _ h.2.2.2.1 (smoke_new_band env hr _ _), h.2.2.2.2⟩
  · exact ⟨h.1, h.2.1,
      all_append_singleton _ _ _
        (all_append_singleton _ _ _ h.2.2.1 (vine_new_band env hr _ _))
        (vine_new_band env hr _ _),
      h.2.2.2.1, h.2.2.2.2⟩
  · exact ⟨h.1, all_append_singleton _ _ _ h.2.1 (cluster_new_band env hr _ _), h.2.2.1,
      h.2.2.2.1, all_append_singleton _ _ _ h.2.2.2.2 (line_new_band env hr _ _)⟩
  · exact h

theorem checkForNewInstruments_inBand (env : Env) (hr : RandomInRange env) (s : State)
    (h : InBand s) : InBand (checkForNewInstruments env s) := by
  unfold checkForNewInstruments
  have hfold := foldIdx_invariant
    (fun st : State => st.g = s.g ∧ InBandAt s.g.cameraZ st)
    (fun st i change => if exceedsThreshold change then spawnNewElements env i st else st)
    (fun st i x hst => by
      show (if exceedsThreshold x then spawnNewElements env i st else st).g = s.g
        ∧ InBandAt s.g.cameraZ (if exceedsThreshold x then spawnNewElements env i st else st)
      split_ifs
      · refine ⟨(spawnNewElements_g env i st).trans hst.1, ?_⟩
        have h2 := spawnNewElements_inBand env hr i st (by rw [hst.1]; exact hst.2)
        rw [hst.1] at h2
        exact h2
      · exact hst)
    s 0
    (mapWithIndex (fun e i => (s.g.lastEnergyLevels[i]?).map (fun p => e - p)) 0
      [s.g.bassEnergy, s.g.midEnergy, s.g.trebleEnergy])
    ⟨rfl, h⟩
  unfold InBand
  simp only [hfold.1]
  exact hfold.2

theorem updateOrganicSystems_inBand (env : Env) (hr : RandomInRange env) (s : State)
    (hplay : s.g.isPlaying = true) (cz0 : ℚ) (hcz : cz0 ≤ s.g.cameraZ)
    (h : InBandAt cz0 s) : InBand (updateOrganicSystems env s) := by
  unfold InBand InBandAt updateOrganicSystems
  refine ⟨?_, ?_, ?_, ?_, ?_⟩
  · apply topUp_all (fun m : OrganicMass => InDepthBand 2500 200 s.g.cameraZ m.position.z)
      _ _ (mass_new_band env hr _)
    exact forEachUpdate_all (fun m : OrganicMass => InDepthBand 2500 200 cz0 m.position.z) _ _
      (fun k x hx => mass_update_band env hr s.g hplay k x (by have := hx.2; linarith)) _ _ h.1
  · apply topUp_all (fun c : ParticleCluster => InDepthBand 2200 300 s.g.cameraZ c.position.z)
      _ _ (cluster_new_band env hr _)
    exact forEachUpdate_all (fun c : ParticleCluster => InDepthBand 2200 300 cz0 c.position.z)
      _ _ (fun k x hx => cluster_update_band env hr s.g hplay k x (by have := hx.2; linarith))
      _ _ h.2.1
  · apply topUp_all (fun v : CreepingVine => InDepthBand 2300 400 s.g.cameraZ v.position.z)
      _ _ (vine_new_band env hr _)
    exact forEachUpdate_all (fun v : CreepingVine => InDepthBand 2300 400 cz0 v.position.z)
      _ _ (fun k x hx => vine_update_band env hr s.g hplay k x (by have := hx.2; linarith))
      _ _ h.2.2.1
  · apply topUp_all (fun p : SmokeParticle => InDepthBand 3000 500 s.g.cameraZ p.position.z)
      _ _ (smoke_new_band env hr _)
    exact forEachUpdate_all (fun p : SmokeParticle => InDepthBand 3000 500 cz0 p.position.z)
      _ _ (fun k x hx => smoke_update_band env hr s.g hplay k x (by have := hx.2; linarith))
      _ _ h.2.2.2.1
  · apply topUp_all (fun l : MorphingLine => InDepthBand 2400 400 s.g.cameraZ l.startPos.z)
      _ _ (line_new_band env hr _)
    exact forEachUpdate_all (fun l : MorphingLine => InDepthBand 2400 400 cz0 l.startPos.z)
      _ _ (fun k x hx => line_update_band env hr s.g hplay k x (by have := hx.2; linarith))
      _ _ h.2.2.2.2

theorem playingFrame_inBand (env : Env) (hr : RandomInRange env) (raw : RawEnergy) (s : State)
    (hplay : s.g.isPlaying = true) (hsb : 0 ≤ s.g.smoothedBass) (hraw : 0 ≤ raw.rawBass)
    (h : InBand s) : InBand (playingFrame env raw s) := by
  unfold playingFrame
  apply checkForNewInstruments_inBand env hr
  have hp : (updateGlobalAnimations
      (updateCameraSystem env (analyzeAudioSmooth raw s.g))).isPlaying = true := by
    simp [updateGlobalAnimations, updateCameraSystem, analyzeAudioSmooth, hplay]
  have hcz : s.g.cameraZ ≤ (updateGlobalAnimations
      (updateCameraSystem env (analyzeAudioSmooth raw s.g))).cameraZ := by
    have h3 := lerp_nonneg _ _ hsb hraw
    simp only [updateGlobalAnimations, updateCameraSystem, analyzeAudioSmooth]
    linarith
  exact updateOrganicSystems_inBand env hr
    { s with g := updateGlobalAnimations (updateCameraSystem env (analyzeAudioSmooth raw s.g)) }
    hp s.g.cameraZ hcz h

theorem playingFrame_flags (env : Env) (raw : RawEnergy) (s : State) :
    (playingFrame env raw s).g.isPlaying = s.g.isPlaying
    ∧ (playingFrame env raw s).g.songPlaying = s.g.songPlaying
    ∧ (playingFrame env raw s).g.audioLoaded = s.g.audioLoaded
    ∧ (playingFrame env raw s).g.audioContextInitialized = s.g.audioContextInitialized := by
  simp [playingFrame, checkForNewInstruments_g, updateOrganicSystems_g, updateGlobalAnimations,
    updateCameraSystem, analyzeAudioSmooth]

theorem updateStatus_eq (message : String) (g : Globals) :
    updateStatus message g = { g with statusText := g.statusText.map (fun _ => message) } := by
  unfold updateStatus
  cases g with
  | mk a b c d e f g1 h i j k l m n o p status btn =>
    cases status <;> rfl

/-! ## Lemmas on the session -/

theorem InBand_of_g (s : State) (g1 : Globals) (hcz : g1.cameraZ = s.g.cameraZ)
    (h : InBand s) : InBand { s with g := g1 } := by
  unfold InBand at *
  simp only [hcz]
  exact h

theorem togglePlay_keeps (g : Globals) :
    (togglePlay g).cameraZ = g.cameraZ ∧ (togglePlay g).smoothedBass = g.smoothedBass
    ∧ (togglePlay g).audioLoaded = g.audioLoaded
    ∧ ((g.songPlaying = true → g.isPlaying = true) →
        (togglePlay g).songPlaying = true → (togglePlay g).isPlaying = true) := by
  unfold togglePlay
  simp only [updateStatus_eq]
  split_ifs
  · simp_all
  · simp_all
  · simp_all
  · simp_all

theorem togglePlay_unmet (g : Globals)
    (hpre : g.audioContextInitialized = false ∨ g.audioLoaded = false) :
    togglePlay g =
      { g with
        statusText := g.statusText.map (fun _ =>
          if g.audioContextInitialized = false then "initialize audio first"
          else "audio file not found") } := by
  unfold togglePlay
  simp only [updateStatus_eq]
  rcases hpre with h | h
  · simp [h]
  · by_cases h1 : g.audioContextInitialized = false
    · simp [h1]
    · simp [h, h1]

theorem togglePlay_twice (g : Globals)
    (hpre : g.audioContextInitialized = false ∨ g.audioLoaded = false) :
    togglePlay (togglePlay g) = togglePlay g := by
  have h1 := togglePlay_unmet g hpre
  have hpre2 : (togglePlay g).audioContextInitialized = false
      ∨ (togglePlay g).audioLoaded = false := by
    rw [h1]
    exact hpre
  rw [togglePlay_unmet (togglePlay g) hpre2, h1]
  cases g with
  | mk a b c d e f g1 h i j k l m n o p status btn =>
    cases status <;> rfl

theorem step_keeps_unloaded (env : Env) (e : Event) (he : e ≠ Event.soundLoaded) (s : State)
    (hload : s.g.audioLoaded = false) (hplay : s.g.isPlaying = false) :
    (step env e s).g.audioLoaded = false ∧ (step env e s).g.isPlaying = false := by
  cases e with
  | soundLoaded => exact absurd rfl he
  | soundLoadFailed => simp [step, soundLoadFailed, updateStatus_eq, hload, hplay]
  | initializeAudio resolved =>
    cases resolved <;> simp [step, initializeAudio, updateStatus_eq, hload, hplay]
  | togglePlay =>
    simp only [step]
    rw [togglePlay_unmet s.g (Or.inr hload)]
    exact ⟨hload, hplay⟩
  | songEnded => simp [step, songEnded, hload, hplay]
  | draw raw => simp [step, draw, hload, hplay]

theorem run_keeps_unloaded (env : Env) (es : List Event) (hes : ∀ e ∈ es, e ≠ Event.soundLoaded)
    (s : State) (hload : s.g.audioLoaded = false) (hplay : s.g.isPlaying = false) :
    (run env es s).g.audioLoaded = false ∧ (run env es s).g.isPlaying = false := by
  induction es generalizing s with
  | nil => exact ⟨hload, hplay⟩
  | cons e es ih =>
    have h := step_keeps_unloaded env e (hes e (List.mem_cons_self _ _)) s hload hplay
    exact ih (fun e1 he1 => hes e1 (List.mem_cons_of_mem _ he1)) _ h.1 h.2

theorem step_invariant (env : Env) (hr : RandomInRange env) (e : Event) (he : EventInRange e)
    (s : State) (h1 : s.g.songPlaying = true → s.g.isPlaying = true)
    (h2 : 0 ≤ s.g.smoothedBass) (h3 : InBand s) :
    ((step env e s).g.songPlaying = true → (step env e s).g.isPlaying = true)
    ∧ 0 ≤ (step env e s).g.smoothedBass ∧ InBand (step env e s) := by
  cases e with
  | soundLoaded =>
    refine ⟨?_, ?_, InBand_of_g s _ ?_ h3⟩ <;>
      simp_all [step, soundLoaded, updateStatus_eq]
  | soundLoadFailed =>
    refine ⟨?_, ?_, InBand_of_g s _ ?_ h3⟩ <;>
      simp_all [step, soundLoadFailed, updateStatus_eq]
  | initializeAudio resolved =>
    cases resolved <;> refine ⟨?_, ?_, InBand_of_g s _ ?_ h3⟩ <;>
      simp_all [step, initializeAudio, updateStatus_eq]
  | togglePlay =>
    have h := togglePlay_keeps s.g
    refine ⟨h.2.2.2 h1, ?_, InBand_of_g s _ h.1 h3⟩
    simp only [step]
    rw [h.2.1]
    exact h2
  | songEnded =>
    refine ⟨?_, ?_, InBand_of_g s _ ?_ h3⟩ <;> simp_all [step, songEnded]
  | draw raw =>
    simp only [step, draw]
    split_ifs with hc
    · have hsong : s.g.songPlaying = true := by
        simp only [Bool.and_eq_true] at hc
        exact hc.2
      have hraw : 0 ≤ raw.rawBass := he.1.1
      have hf := playingFrame_flags env raw s
      refine ⟨?_, ?_, playingFrame_inBand env hr raw s (h1 hsong) h2 hraw h3⟩
      · intro _
        rw [hf.1]
        exact h1 hsong
      · rw [playingFrame_smoothedBass]
        exact lerp_nonneg _ _ h2 hraw
    · exact ⟨h1, h2, h3⟩

theorem run_invariant (env : Env) (hr : RandomInRange env) (es : List Event)
    (hes : ∀ e ∈ es, EventInRange e) (s : State)
    (h1 : s.g.songPlaying = true → s.g.isPlaying = true)
    (h2 : 0 ≤ s.g.smoothedBass) (h3 : InBand s) :
    ((run env es s).g.songPlaying = true → (run env es s).g.isPlaying = true)
    ∧ 0 ≤ (run env es s).g.smoothedBass ∧ InBand (run env es s) := by
  induction es generalizing s with
  | nil => exact ⟨h1, h2, h3⟩
  | cons e es ih =>
    have h := step_invariant env hr e (hes e (List.mem_cons_self _ _)) s h1 h2 h3
    exact ih (fun e1 he1 => hes e1 (List.mem_cons_of_mem _ he1)) _ h.1 h.2.1 h.2.2

theorem runFrames_inBand (env : Env) (hr : RandomInRange env) (raws : List RawEnergy)
    (hraws : ∀ raw ∈ raws, RawInRange raw) (s : State) (hplay : s.g.isPlaying = true)
    (h2 : 0 ≤ s.g.smoothedBass) (h3 : InBand s) : InBand (runFrames env raws s) := by
  induction raws generalizing s with
  | nil => exact h3
  | cons r rs ih =>
    have hr0 : 0 ≤ r.rawBass := (hraws r (List.mem_cons_self _ _)).1.1
    simp only [runFrames]
    apply ih (fun raw hraw => hraws raw (List.mem_cons_of_mem _ hraw))
    · rw [(playingFrame_flags env r s).1]
      exact hplay
    · rw [playingFrame_smoothedBass]
      exact lerp_nonneg _ _ h2 hr0
    · exact playingFrame_inBand env hr r s hplay h2 hr0 h3

theorem setup_facts (env : Env) (hr : RandomInRange env) (status : Option String)
    (btn : String) :
    (setup env status btn).g.cameraZ = 0 ∧ (setup env status btn).g.smoothedBass = 0
    ∧ (setup env status btn).g.songPlaying = false
    ∧ (setup env status btn).g.isPlaying = false
    ∧ (setup env status btn).g.audioLoaded = false
    ∧ InBand (setup env status btn) := by
  refine ⟨?_, ?_, ?_, ?_, ?_, ?_⟩
  · simp [setup, updateStatus_eq, initializeOrganicSystems, Globals.initial]
  · simp [setup, updateStatus_eq, initializeOrganicSystems, Globals.initial]
  · simp [setup, updateStatus_eq, initializeOrganicSystems, Globals.initial]
  · simp [setup, updateStatus_eq, initializeOrganicSystems, Globals.initial]
  · simp [setup, updateStatus_eq, initializeOrganicSystems, Globals.initial]
  · unfold setup
    apply InBand_of_g
    · simp [updateStatus_eq]
    · exact initializeOrganicSystems_inBand env hr _

/-! ## Lemmas on repeated smoothing -/

theorem lerp_within (lo hi prev raw : ℚ) (hp : lo ≤ prev ∧ prev ≤ hi)
    (hr : lo ≤ raw ∧ raw ≤ hi) :
    lo ≤ lerp prev raw (4 / 100) ∧ lerp prev raw (4 / 100) ≤ hi := by
  unfold lerp
  constructor <;> linarith [hp.1, hp.2, hr.1, hr.2]

/-- Smoothing keeps every band inside an interval that holds its value and
all the readings. -/
theorem smoothRun_within (lo hi : ℚ) (raws : List RawEnergy) (g : Globals)
    (hb : lo ≤ g.smoothedBass ∧ g.smoothedBass ≤ hi)
    (hraws : ∀ raw ∈ raws, lo ≤ raw.rawBass ∧ raw.rawBass ≤ hi) :
    lo ≤ (smoothRun raws g).smoothedBass ∧ (smoothRun raws g).smoothedBass ≤ hi := by
  induction raws generalizing g with
  | nil => exact hb
  | cons r rs ih =>
    simp only [smoothRun]
    apply ih
    · exact lerp_within lo hi _ _ hb (hraws r (List.mem_cons_self _ _))
    · exact fun raw hraw => hraws raw (List.mem_cons_of_mem _ hraw)

theorem smoothRun_within_mid (lo hi : ℚ) (raws : List RawEnergy) (g : Globals)
    (hb : lo ≤ g.smoothedMid ∧ g.smoothedMid ≤ hi)
    (hraws : ∀ raw ∈ raws, lo ≤ raw.rawMid ∧ raw.rawMid ≤ hi) :
    lo ≤ (smoothRun raws g).smoothedMid ∧ (smoothRun raws g).smoothedMid ≤ hi := by
  induction raws generalizing g with
  | nil => exact hb
  | cons r rs ih =>
    simp only [smoothRun]
    apply ih
    · exact lerp_within lo hi _ _ hb (hraws r (List.mem_cons_self _ _))
    · exact fun raw hraw => hraws raw (List.mem_cons_of_mem _ hraw)

theorem smoothRun_within_treble (lo hi : ℚ) (raws : List RawEnergy) (g : Globals)
    (hb : lo ≤ g.smoothedTreble ∧ g.smoothedTreble ≤ hi)
    (hraws : ∀ raw ∈ raws, lo ≤ raw.rawTreble ∧ raw.rawTreble ≤ hi) :
    lo ≤ (smoothRun raws g).smoothedTreble ∧ (smoothRun raws g).smoothedTreble ≤ hi := by
  induction raws generalizing g with
  | nil => exact hb
  | cons r rs ih =>
    simp only [smoothRun]
    apply ih
    · exact lerp_within lo hi _ _ hb (hraws r (List.mem_cons_self _ _))
    · exact fun raw hraw => hraws raw (List.mem_cons_of_mem _ hraw)

theorem minOf_le (init : ℚ) (xs : List ℚ) :
    minOf init xs ≤ init ∧ ∀ x ∈ xs, minOf init xs ≤ x := by
  unfold minOf
  induction xs generalizing init with
  | nil => exact ⟨le_refl _, fun x hx => absurd hx (List.not_mem_nil x)⟩
  | cons y ys ih =>
    simp only [List.foldl_cons]
    have h := ih (min init y)
    refine ⟨h.1.trans (min_le_left _ _), fun x hx => ?_⟩
    rcases List.mem_cons.mp hx with hx | hx
    · rw [hx]
      exact h.1.trans (min_le_right _ _)
    · exact h.2 x hx

theorem le_maxOf (init : ℚ) (xs : List ℚ) :
    init ≤ maxOf init xs ∧ ∀ x ∈ xs, x ≤ maxOf init xs := by
  unfold maxOf
  induction xs generalizing init with
  | nil => exact ⟨le_refl _, fun x hx => absurd hx (List.not_mem_nil x)⟩
  | cons y ys ih =>
    simp only [List.foldl_cons]
    have h := ih (max init y)
    refine ⟨(le_max_left _ _).trans h.1, fun x hx => ?_⟩
    rcases List.mem_cons.mp hx with hx | hx
    · rw [hx]
      exact (le_max_right _ _).trans h.1
    · exact h.2 x hx

theorem minOf_le_maxOf (init : ℚ) (xs : List ℚ) : minOf init xs ≤ maxOf init xs :=
  (minOf_le init xs).1.trans (le_maxOf init xs).1

/-! ## Lemmas on the substructure counts -/

theorem floor_random_mass (env : Env) (hr : RandomHalfOpen env) (k : Nat) :
    12 ≤ ⌊env.random k 12 20⌋ ∧ ⌊env.random k 12 20⌋ < 20 := by
  have h := hr k 12 20 (by norm_num)
  exact ⟨Int.le_floor.mpr (by exact_mod_cast h.1), Int.floor_lt.mpr (by exact_mod_cast h.2)⟩

theorem floor_random_cluster (env : Env) (hr : RandomHalfOpen env) (k : Nat) :
    40 ≤ ⌊env.random k 40 80⌋ ∧ ⌊env.random k 40 80⌋ < 80 := by
  have h := hr k 40 80 (by norm_num)
  exact ⟨Int.le_floor.mpr (by exact_mod_cast h.1), Int.floor_lt.mpr (by exact_mod_cast h.2)⟩

theorem floor_random_vine (env : Env) (hr : RandomHalfOpen env) (k : Nat) :
    15 ≤ ⌊env.random k 15 30⌋ ∧ ⌊env.random k 15 30⌋ < 30 := by
  have h := hr k 15 30 (by norm_num)
  exact ⟨Int.le_floor.mpr (by exact_mod_cast h.1), Int.floor_lt.mpr (by exact_mod_cast h.2)⟩

theorem floor_random_line (env : Env) (hr : RandomHalfOpen env) (k : Nat) :
    8 ≤ ⌊env.random k 8 16⌋ ∧ ⌊env.random k 8 16⌋ < 16 := by
  have h := hr k 8 16 (by norm_num)
  exact ⟨Int.le_floor.mpr (by exact_mod_cast h.1), Int.floor_lt.mpr (by exact_mod_cast h.2)⟩

theorem mass_new_count (env : Env) (cameraZ : ℚ) (k : Nat) :
    (OrganicMass.new env cameraZ k).1.vertices.length = ⌊env.random (k + 5) 12 20⌋.toNat := by
  unfold OrganicMass.new
  exact OrganicMass.generateOrganicShape_length _ _ _

theorem line_new_count (env : Env) (cameraZ : ℚ) (k : Nat) :
    (MorphingLine.new env cameraZ k).1.controlPoints.length
      = (⌊env.random (k + 7) 8 16⌋ + 1).toNat := by
  unfold MorphingLine.new
  exact MorphingLine.generateControlPoints_length _ _ _

/-- A mass with 12 to 19 vertices has 12 to 19 vertices after `update()`. -/
theorem mass_update_count (env : Env) (hr : RandomHalfOpen env) (g : Globals) (k : Nat)
    (m : OrganicMass) (h : 12 ≤ m.vertices.length ∧ m.vertices.length ≤ 19) :
    12 ≤ (OrganicMass.update env g k m).1.vertices.length
    ∧ (OrganicMass.update env g k m).1.vertices.length ≤ 19 := by
  by_cases hz : m.position.z < g.cameraZ - 2500
  · by_cases hp : g.isPlaying = true
    · rw [(OrganicMass.mass_update_recycle env g k m hp hz).2]
      have hf := floor_random_mass env hr (k + 1)
      omega
    · rw [OrganicMass.mass_update_paused env g k m (by simpa using hp)]
      exact h
  · rw [(OrganicMass.mass_update_keep env g k m hz).2]
    exact h

/-- A line with 9 to 16 control points has 9 to 16 after `update()`. -/
theorem line_update_count (env : Env) (hr : RandomHalfOpen env) (g : Globals) (k : Nat)
    (l : MorphingLine) (h : 9 ≤ l.controlPoints.length ∧ l.controlPoints.length ≤ 16) :
    9 ≤ (MorphingLine.update env g k l).1.controlPoints.length
    ∧ (MorphingLine.update env g k l).1.controlPoints.length ≤ 16 := by
  by_cases hz : l.startPos.z < g.cameraZ - 2400
  · by_cases hp : g.isPlaying = true
    · rw [MorphingLine.line_update_recycle_count env g k l hp hz]
      have hf := floor_random_line env hr (k + l.controlPoints.length + 2)
      omega
    · rw [MorphingLine.line_update_paused env g k l (by simpa using hp)]
      exact h
  · rw [(MorphingLine.line_update_keep env g k l hz).2]
    exact h

/-- A cluster whose list has `baseCount` particles keeps `baseCount` and a
list of that length through `update()`. -/
theorem cluster_update_count (env : Env) (g : Globals) (k : Nat) (c : ParticleCluster)
    (lo hi : ℤ) (h : (lo ≤ c.baseCount ∧ c.baseCount ≤ hi)
      ∧ c.particles.length = c.baseCount.toNat) :
    (lo ≤ (ParticleCluster.update env g k c).1.baseCount
      ∧ (ParticleCluster.update env g k c).1.baseCount ≤ hi)
    ∧ (ParticleCluster.update env g k c).1.particles.length
      = (ParticleCluster.update env g k c).1.baseCount.toNat := by
  by_cases hz : c.position.z < g.cameraZ - 2200
  · by_cases hp : g.isPlaying = true
    · have hrec := ParticleCluster.cluster_update_recycle env g k c hp hz
      rw [hrec.2.1, hrec.2.2]
      exact ⟨h.1, rfl⟩
    · rw [ParticleCluster.cluster_update_paused env g k c (by simpa using hp)]
      exact h
  · have hk := ParticleCluster.cluster_update_keep env g k c hz
    rw [hk.2.1, hk.2.2]
    exact h

/-- A vine whose list has `maxSegments` segments keeps `maxSegments` and a
list of that length through `update()`. -/
theorem vine_update_count (env : Env) (g : Globals) (k : Nat) (v : CreepingVine)
    (lo hi : ℤ) (h : (lo ≤ v.maxSegments ∧ v.maxSegments ≤ hi)
      ∧ v.segments.length = v.maxSegments.toNat) :
    (lo ≤ (CreepingVine.update env g k v).1.maxSegments
      ∧ (CreepingVine.update env g k v).1.maxSegments ≤ hi)
    ∧ (CreepingVine.update env g k v).1.segments.length
      = (CreepingVine.update env g k v).1.maxSegments.toNat := by
  by_cases hz : v.position.z < g.cameraZ - 2300
  · by_cases hp : g.isPlaying = true
    · have hrec := CreepingVine.vine_update_recycle env g k v hp hz
      rw [hrec.2.1, hrec.2.2]
      exact ⟨h.1, rfl⟩
    · rw [CreepingVine.vine_update_paused env g k v (by simpa using hp)]
      exact h
  · have hk := CreepingVine.vine_update_keep env g k v hz
    rw [hk.2.1, hk.2.2]
    exact h

/-! ## Lemmas on the particle offsets -/

/-- The component of a vector along a unit vector is at most a bound on its
length. -/
theorem dot_le_of_unit {F : Type} [LinearOrderedField F] (ox oy oz dx dy dz M : F)
    (hd : dx * dx + dy * dy + dz * dz = 1) (hM : 0 ≤ M)
    (ho : ox * ox + oy * oy + oz * oz ≤ M * M) :
    ox * dx + oy * dy + oz * dz ≤ M := by
  have hcs : (ox * dx + oy * dy + oz * dz) ^ 2 ≤ M ^ 2 := by
    nlinarith [sq_nonneg (ox * dy - oy * dx), sq_nonneg (ox * dz - oz * dx),
      sq_nonneg (oy * dz - oz * dy)]
  exact (abs_le_of_sq_le_sq' hcs hM).2

/-- Adding `c` times a unit vector to a vector of length at most `M` and
damping by 0.98 gives a vector of length at most `0.98 * (M + c)`, in
squares. -/
theorem damped_step_sq {F : Type} [LinearOrderedField F] (ox oy oz dx dy dz c M : F)
    (hd : dx * dx + dy * dy + dz * dz = 1) (hc : 0 ≤ c) (hM : 0 ≤ M)
    (ho : ox * ox + oy * oy + oz * oz ≤ M * M) :
    (ox + dx * c) * (98 / 100) * ((ox + dx * c) * (98 / 100))
      + (oy + dy * c) * (98 / 100) * ((oy + dy * c) * (98 / 100))
      + (oz + dz * c) * (98 / 100) * ((oz + dz * c) * (98 / 100))
      ≤ 98 / 100 * (M + c) * (98 / 100 * (M + c)) := by
  have hdot := dot_le_of_unit ox oy oz dx dy dz M hd hM ho
  have h1 : c * (ox * dx + oy * dy + oz * dz) ≤ c * M := mul_le_mul_of_nonneg_left hdot hc
  have h2 : (ox + dx * c) * (ox + dx * c) + (oy + dy * c) * (oy + dy * c)
      + (oz + dz * c) * (oz + dz * c) ≤ (M + c) * (M + c) := by
    have e : (ox + dx * c) * (ox + dx * c) + (oy + dy * c) * (oy + dy * c)
        + (oz + dz * c) * (oz + dz * c)
        = (ox * ox + oy * oy + oz * oz) + 2 * (c * (ox * dx + oy * dy + oz * dz))
          + c * c * (dx * dx + dy * dy + dz * dz) := by ring
    rw [e, hd]
    nlinarith
  nlinarith

theorem impulse_nonneg (env : Env) (hn : NoiseInUnit env) (g : Globals) (x : ℚ)
    (ht : 0 ≤ g.smoothedTreble) : 0 ≤ env.noise x * (g.smoothedTreble * (1 / 100)) :=
  mul_nonneg (hn x).1 (by linarith)

theorem impulse_le (env : Env) (hn : NoiseInUnit env) (g : Globals) (x : ℚ)
    (ht : 0 ≤ g.smoothedTreble ∧ g.smoothedTreble ≤ 255) :
    env.noise x * (g.smoothedTreble * (1 / 100)) ≤ 255 / 100 := by
  have h1 := (hn x).1
  have h2 := (hn x).2
  have h3 : env.noise x * (g.smoothedTreble * (1 / 100)) ≤ 1 * (g.smoothedTreble * (1 / 100)) :=
    mul_le_mul_of_nonneg_right h2 (by linarith [ht.1])
  linarith [ht.2]

/-- One run of the callback of `particles.forEach`, in squares. -/
theorem moveParticle_step_sq (env : Env) (hn : NoiseInUnit env) (hd : UnitDirections env)
    (g : Globals) (k index : Nat) (particle : Particle) (ht : 0 ≤ g.smoothedTreble)
    (M : ℚ) (hM : 0 ≤ M) (ho : particle.offset.magSq ≤ M * M) :
    (ParticleCluster.moveParticle env g k index particle).2.offset.magSq
      ≤ 98 / 100 * (M + env.noise (particle.noiseOffset + 4 / 1000)
          * (g.smoothedTreble * (1 / 100)))
        * (98 / 100 * (M + env.noise (particle.noiseOffset + 4 / 1000)
          * (g.smoothedTreble * (1 / 100)))) := by
  have h := damped_step_sq particle.offset.x particle.offset.y particle.offset.z
    (env.random3D k).x (env.random3D k).y (env.random3D k).z
    (env.noise (particle.noiseOffset + 4 / 1000) * (g.smoothedTreble * (1 / 100))) M
    (hd k) (impulse_nonneg env hn g _ ht) hM ho
  simp only [ParticleCluster.moveParticle, Vec3.magSq, Vec3.add, Vec3.mult]
  exact h

/-- A bound `M ≥ 124.95` on the length of the offset is kept by one run of
the callback when `smoothedTreble` is in `[0, 255]`. -/
theorem moveParticle_keeps_bound (env : Env) (hn : NoiseInUnit env) (hd : UnitDirections env)
    (g : Globals) (k index : Nat) (particle : Particle)
    (ht : 0 ≤ g.smoothedTreble ∧ g.smoothedTreble ≤ 255)
    (M : ℚ) (hM : 12495 / 100 ≤ M) (ho : particle.offset.magSq ≤ M * M) :
    (ParticleCluster.moveParticle env g k index particle).2.offset.magSq ≤ M * M := by
  have hM0 : 0 ≤ M := by linarith
  have h := moveParticle_step_sq env hn hd g k index particle ht.1 M hM0 ho
  have hc0 := impulse_nonneg env hn g (particle.noiseOffset + 4 / 1000) ht.1
  have hc1 := impulse_le env hn g (particle.noiseOffset + 4 / 1000) ht
  have hle : 98 / 100 * (M + env.noise (particle.noiseOffset + 4 / 1000)
      * (g.smoothedTreble * (1 / 100))) ≤ M := by linarith
  have hnn : 0 ≤ 98 / 100 * (M + env.noise (particle.noiseOffset + 4 / 1000)
      * (g.smoothedTreble * (1 / 100))) := by linarith
  exact h.trans (mul_le_mul hle hle hnn hM0)

theorem moveParticleRun_keeps_bound (env : Env) (hn : NoiseInUnit env)
    (hd : UnitDirections env) (cs : List (Globals × Nat × Nat)) (particle : Particle)
    (hcs : ∀ c ∈ cs, 0 ≤ c.1.smoothedTreble ∧ c.1.smoothedTreble ≤ 255)
    (M : ℚ) (hM : 12495 / 100 ≤ M) (ho : particle.offset.magSq ≤ M * M) :
    (moveParticleRun env cs particle).offset.magSq ≤ M * M := by
  induction cs generalizing particle with
  | nil => exact ho
  | cons c cs ih =>
    simp only [moveParticleRun]
    exact ih _ (fun c1 hc1 => hcs c1 (List.mem_cons_of_mem _ hc1))
      (moveParticle_keeps_bound env hn hd c.1 c.2.1 c.2.2 particle
        (hcs c (List.mem_cons_self _ _)) M hM ho)

theorem magSq_nonneg (v : Vec3) : 0 ≤ v.magSq := by
  unfold Vec3.magSq
  nlinarith [mul_self_nonneg v.x, mul_self_nonneg v.y, mul_self_nonneg v.z]

/-- One run of the callback of `particles.forEach`, in lengths:
`|offset'| ≤ 0.98 * (|offset| + 0.01 * noise * smoothedTreble)`. -/
theorem moveParticle_step_sqrt (env : Env) (hn : NoiseInUnit env) (hd : UnitDirections env)
    (g : Globals) (k index : Nat) (particle : Particle) (ht : 0 ≤ g.smoothedTreble) :
    Real.sqrt ((ParticleCluster.moveParticle env g k index particle).2.offset.magSq : ℝ)
      ≤ 98 / 100 * (Real.sqrt (particle.offset.magSq : ℝ)
        + ((env.noise (particle.noiseOffset + 4 / 1000) * (g.smoothedTreble * (1 / 100)) : ℚ)
            : ℝ)) := by
  have hO : (0 : ℝ) ≤ (particle.offset.magSq : ℝ) := by
    exact_mod_cast magSq_nonneg particle.offset
  have hc : (0 : ℝ) ≤ ((env.noise (particle.noiseOffset + 4 / 1000)
      * (g.smoothedTreble * (1 / 100)) : ℚ) : ℝ) := by
    exact_mod_cast impulse_nonneg env hn g (particle.noiseOffset + 4 / 1000) ht
  have hd1 : ((env.random3D k).x : ℝ) * (env.random3D k).x
      + ((env.random3D k).y : ℝ) * (env.random3D k).y
      + ((env.random3D k).z : ℝ) * (env.random3D k).z = 1 := by
    have h := hd k
    unfold Vec3.magSq at h
    exact_mod_cast h
  have ho1 : (particle.offset.x : ℝ) * particle.offset.x
      + (particle.offset.y : ℝ) * particle.offset.y
      + (particle.offset.z : ℝ) * particle.offset.z
      ≤ Real.sqrt (particle.offset.magSq : ℝ) * Real.sqrt (particle.offset.magSq : ℝ) := by
    rw [Real.mul_self_sqrt hO]
    unfold Vec3.magSq
    push_cast
    exact le_refl _
  have h := damped_step_sq (particle.offset.x : ℝ) particle.offset.y particle.offset.z
    (env.random3D k).x (env.random3D k).y (env.random3D k).z
    ((env.noise (particle.noiseOffset + 4 / 1000) * (g.smoothedTreble * (1 / 100)) : ℚ) : ℝ)
    (Real.sqrt (particle.offset.magSq : ℝ)) hd1 hc (Real.sqrt_nonneg _) ho1
  rw [Real.sqrt_le_iff]
  refine ⟨mul_nonneg (by norm_num) (add_nonneg (Real.sqrt_nonneg _) hc), ?_⟩
  have e : (((ParticleCluster.moveParticle env g k index particle).2.offset.magSq : ℚ) : ℝ)
      = ((particle.offset.x : ℝ) + (env.random3D k).x
          * ((env.noise (particle.noiseOffset + 4 / 1000)
            * (g.smoothedTreble * (1 / 100)) : ℚ) : ℝ)) * (98 / 100)
        * (((particle.offset.x : ℝ) + (env.random3D k).x
          * ((env.noise (particle.noiseOffset + 4 / 1000)
            * (g.smoothedTreble * (1 / 100)) : ℚ) : ℝ)) * (98 / 100))
      + ((particle.offset.y : ℝ) + (env.random3D k).y
          * ((env.noise (particle.noiseOffset + 4 / 1000)
            * (g.smoothedTreble * (1 / 100)) : ℚ) : ℝ)) * (98 / 100)
        * (((particle.offset.y : ℝ) + (env.random3D k).y
          * ((env.noise (particle.noiseOffset + 4 / 1000)
            * (g.smoothedTreble * (1 / 100)) : ℚ) : ℝ)) * (98 / 100))
      + ((particle.offset.z : ℝ) + (env.random3D k).z
          * ((env.noise (particle.noiseOffset + 4 / 1000)
            * (g.smoothedTreble * (1 / 100)) : ℚ) : ℝ)) * (98 / 100)
        * (((particle.offset.z : ℝ) + (env.random3D k).z
          * ((env.noise (particle.noiseOffset + 4 / 1000)
            * (g.smoothedTreble * (1 / 100)) : ℚ) : ℝ)) * (98 / 100)) := by
    simp only [ParticleCluster.moveParticle, Vec3.magSq, Vec3.add, Vec3.mult]
    push_cast
    ring
  rw [e, pow_two]
  exact h

theorem sqrt_magSq_le (v : Vec3) (M : ℚ) (hM : 0 ≤ M) (h : v.magSq ≤ M * M) :
    Real.sqrt (v.magSq : ℝ) ≤ (M : ℝ) := by
  rw [Real.sqrt_le_iff]
  refine ⟨by exact_mod_cast hM, ?_⟩
  rw [pow_two]
  exact_mod_cast h

theorem forEachIdx_all {α σ : Type} (P : α → Prop) (f : σ → Nat → α → σ × α)
    (hf : ∀ st i x, P x → P (f st i x).2) (st : σ) (i : Nat) (xs : List α)
    (h : ∀ x ∈ xs, P x) : ∀ y ∈ (forEachIdx f st i xs).2, P y := by
  induction xs generalizing st i with
  | nil =>
    intro y hy
    simp [forEachIdx] at hy
  | cons x xs ih =>
    intro y hy
    simp only [forEachIdx, List.mem_cons] at hy
    rcases hy with hy | hy
    · rw [hy]
      exact hf st i x (h x (List.mem_cons_self _ _))
    · exact ih _ _ (fun z hz => h z (List.mem_cons_of_mem _ hz)) y hy

/-- Every particle `generateParticleCloud` builds has an offset of length at
most 150. -/
theorem generateParticleCloud_all (env : Env) (hr : RandomInRange env)
    (hd : UnitDirections env) (k : Nat) (c : ParticleCluster) :
    ∀ particle ∈ (ParticleCluster.generateParticleCloud env k c).1.particles,
      particle.offset.magSq ≤ 150 * 150 := by
  unfold ParticleCluster.generateParticleCloud
  apply forLoop_invariant
    (fun st : ParticleCluster × Nat => ∀ particle ∈ st.1.particles,
      particle.offset.magSq ≤ 150 * 150)
  · intro i st hst
    apply all_append_singleton _ _ _ hst
    have hb := hr (st.2 + 1) 30 150
    rw [min_eq_left (by norm_num), max_eq_right (by norm_num)] at hb
    have hu := hd st.2
    unfold Vec3.magSq at hu
    have e : ((env.random3D st.2).mult (env.random (st.2 + 1) 30 150)).magSq
        = env.random (st.2 + 1) 30 150 * env.random (st.2 + 1) 30 150
          * ((env.random3D st.2).x * (env.random3D st.2).x
            + (env.random3D st.2).y * (env.random3D st.2).y
            + (env.random3D st.2).z * (env.random3D st.2).z) := by
      simp only [Vec3.magSq, Vec3.mult]
      ring
    show ((env.random3D st.2).mult (env.random (st.2 + 1) 30 150)).magSq ≤ 150 * 150
    rw [e, hu]
    nlinarith [hb.1, hb.2]
  · intro particle hp
    simp at hp

/-- The bound 150 on the offsets of a cluster is kept by `update()`. -/
theorem cluster_update_all (env : Env) (hr : RandomInRange env) (hn : NoiseInUnit env)
    (hd : UnitDirections env) (g : Globals)
    (ht : 0 ≤ g.smoothedTreble ∧ g.smoothedTreble ≤ 255) (k : Nat) (c : ParticleCluster)
    (h : ∀ particle ∈ c.particles, particle.offset.magSq ≤ 150 * 150) :
    ∀ particle ∈ (ParticleCluster.update env g k c).1.particles,
      particle.offset.magSq ≤ 150 * 150 := by
  by_cases hp : g.isPlaying = true
  · by_cases hz : c.position.z < g.cameraZ - 2200
    · simp only [ParticleCluster.update, hp, Bool.not_true, Bool.false_eq_true, if_false, hz,
        if_true]
      exact generateParticleCloud_all env hr hd _ _
    · simp only [ParticleCluster.update, hp, Bool.not_true, Bool.false_eq_true, if_false, hz]
      exact forEachIdx_all (fun particle : Particle => particle.offset.magSq ≤ 150 * 150) _
        (fun st i x hx => moveParticle_keeps_bound env hn hd g st i x ht 150 (by norm_num) hx)
        _ _ _ h
  · rw [ParticleCluster.cluster_update_paused env g k c (by simpa using hp)]
    exact h

/-! ## Lemmas on rounding to doubles -/

theorem roundHalfEven_le (q : ℚ) : (roundHalfEven q : ℚ) ≤ q + 1 / 2 := by
  have h1 := Int.floor_le q
  unfold roundHalfEven
  split_ifs with h2 h3 h4
  · linarith
  · push_cast
    linarith
  · linarith
  · push_cast
    linarith

theorem le_roundHalfEven (q : ℚ) : q - 1 / 2 ≤ (roundHalfEven q : ℚ) := by
  have h1 := Int.lt_floor_add_one q
  have h0 := Int.floor_le q
  unfold roundHalfEven
  split_ifs with h2 h3 h4
  · linarith
  · push_cast
    linarith
  · linarith
  · push_cast
    linarith

theorem roundHalfEven_intCast (n : ℤ) : roundHalfEven (n : ℚ) = n := by
  unfold roundHalfEven
  simp

theorem floor_le_roundHalfEven (q : ℚ) : ⌊q⌋ ≤ roundHalfEven q := by
  unfold roundHalfEven
  split_ifs <;> omega

theorem roundHalfEven_le_floor_add_one (q : ℚ) : roundHalfEven q ≤ ⌊q⌋ + 1 := by
  unfold roundHalfEven
  split_ifs <;> omega

theorem roundHalfEven_le_of_le (q : ℚ) (n : ℤ) (h : q ≤ n) : roundHalfEven q ≤ n := by
  have h1 : ⌊q⌋ ≤ n := Int.floor_le_iff.mpr (by linarith)
  rcases lt_or_eq_of_le h1 with h2 | h2
  · have := roundHalfEven_le_floor_add_one q
    omega
  · have h3 : q = n := le_antisymm h (by rw [← h2]; exact Int.floor_le q)
    rw [h3, roundHalfEven_intCast]

theorem le_roundHalfEven_of_le (q : ℚ) (n : ℤ) (h : (n : ℚ) ≤ q) : n ≤ roundHalfEven q :=
  (Int.le_floor.mpr h).trans (floor_le_roundHalfEven q)

theorem roundHalfEven_nonneg (q : ℚ) (h : 0 ≤ q) :
    (0 : ℚ) ≤ roundHalfEven q ∧ (roundHalfEven q : ℚ) ≤ 2 * q := by
  have h0 : (0 : ℤ) ≤ roundHalfEven q := le_roundHalfEven_of_le q 0 (by simpa using h)
  refine ⟨by exact_mod_cast h0, ?_⟩
  rcases lt_or_le q (1 / 2) with h1 | h1
  · have hf : ⌊q⌋ = 0 := Int.floor_eq_iff.mpr ⟨by simpa using h, by norm_num; linarith⟩
    have : roundHalfEven q = 0 := by
      unfold roundHalfEven
      rw [hf, if_pos (by push_cast; linarith)]
    rw [this]
    simpa using h
  · linarith [roundHalfEven_le q]

theorem roundHalfEven_nonpos (q : ℚ) (h : q ≤ 0) :
    (roundHalfEven q : ℚ) ≤ 0 ∧ 2 * q ≤ (roundHalfEven q : ℚ) := by
  have h0 : roundHalfEven q ≤ (0 : ℤ) := roundHalfEven_le_of_le q 0 (by simpa using h)
  refine ⟨by exact_mod_cast h0, ?_⟩
  rcases lt_or_le q (-(1 / 2)) with h1 | h1
  · linarith [le_roundHalfEven q]
  · rcases eq_or_lt_of_le h with h2 | h2
    · rw [h2]
      simp [roundHalfEven]
    · have hf : ⌊q⌋ = -1 := Int.floor_eq_iff.mpr ⟨by push_cast; linarith, by push_cast; linarith⟩
      have h3 : (0 : ℤ) ≤ roundHalfEven q := by
        unfold roundHalfEven
        rw [hf]
        split_ifs with a b c
        · push_cast at a
          linarith
        · norm_num
        · norm_num at c
        · norm_num
      have h4 : (0 : ℚ) ≤ roundHalfEven q := by exact_mod_cast h3
      linarith

theorem roundHalfEven_neg (q : ℚ) : roundHalfEven (-q) = -roundHalfEven q := by
  by_cases hq : (⌊q⌋ : ℚ) = q
  · rw [← hq, ← Int.cast_neg, roundHalfEven_intCast, roundHalfEven_intCast]
  · have h1 := Int.floor_le q
    have h2 := Int.lt_floor_add_one q
    have h3 : (⌊q⌋ : ℚ) < q := lt_of_le_of_ne h1 hq
    have hf : ⌊-q⌋ = -⌊q⌋ - 1 :=
      Int.floor_eq_iff.mpr ⟨by push_cast; linarith, by push_cast; linarith⟩
    unfold roundHalfEven
    rw [hf]
    push_cast
    split_ifs <;> first | omega | (exfalso; linarith)

theorem ulp_pos (x : ℚ) : 0 < ulp x := zpow_pos (by norm_num) _

theorem ulp_neg (x : ℚ) : ulp (-x) = ulp x := by
  simp [ulp, binade, abs_neg]

theorem roundDouble_neg (x : ℚ) : roundDouble (-x) = -roundDouble x := by
  unfold roundDouble
  rw [ulp_neg, neg_div, roundHalfEven_neg]
  push_cast
  ring

theorem roundDouble_zero : roundDouble 0 = 0 := by
  simp [roundDouble, roundHalfEven]

theorem roundDouble_nonneg (x : ℚ) (h : 0 ≤ x) :
    0 ≤ roundDouble x ∧ roundDouble x ≤ 2 * x := by
  have hu := ulp_pos x
  have hq := roundHalfEven_nonneg (x / ulp x) (div_nonneg h hu.le)
  unfold roundDouble
  refine ⟨mul_nonneg hq.1 hu.le, ?_⟩
  have h2 := mul_le_mul_of_nonneg_right hq.2 hu.le
  have h3 : 2 * (x / ulp x) * ulp x = 2 * x := by
    field_simp
  linarith

theorem roundDouble_nonpos (x : ℚ) (h : x ≤ 0) :
    roundDouble x ≤ 0 ∧ 2 * x ≤ roundDouble x := by
  have hn := roundDouble_nonneg (-x) (by linarith)
  rw [roundDouble_neg] at hn
  constructor <;> linarith [hn.1, hn.2]

theorem binade_mono (x y : ℚ) (hx : 0 < x) (hxy : x ≤ y) : binade x ≤ binade y := by
  unfold binade
  apply max_le_max _ (le_refl _)
  rw [abs_of_pos hx, abs_of_pos (lt_of_lt_of_le hx hxy)]
  exact Int.log_mono_right hx hxy

/-- A double is a whole multiple of the unit of every binade below its own. -/
theorem double_multiple (x y : ℚ) (hb : binade x ≤ binade y) (hy : IsDouble y) :
    ∃ M : ℤ, y = M * ulp x := by
  refine ⟨roundHalfEven (y / ulp y) * 2 ^ (binade y - binade x).toNat, ?_⟩
  have hk : ((binade y - binade x).toNat : ℤ) = binade y - binade x :=
    Int.toNat_of_nonneg (by omega)
  have h2 : ulp y = 2 ^ (binade y - binade x).toNat * ulp x := by
    unfold ulp
    rw [← zpow_natCast, hk, ← zpow_add₀ (by norm_num)]
    congr 1
    ring
  have h3 : roundDouble y = y := hy
  unfold roundDouble at h3
  push_cast
  rw [mul_assoc, ← h2]
  exact h3.symm

theorem roundDouble_le_nonneg (x y : ℚ) (hx : 0 ≤ x) (hxy : x ≤ y) (hy : IsDouble y) :
    roundDouble x ≤ y := by
  rcases eq_or_lt_of_le hx with h0 | h0
  · rw [← h0, roundDouble_zero]
    linarith
  · obtain ⟨M, hM⟩ := double_multiple x y (binade_mono x y h0 hxy) hy
    have hu := ulp_pos x
    have h1 : x / ulp x ≤ (M : ℚ) := by
      rw [div_le_iff₀ hu, ← hM]
      exact hxy
    have h2 := roundHalfEven_le_of_le _ M h1
    have h3 : (roundHalfEven (x / ulp x) : ℚ) ≤ M := by exact_mod_cast h2
    unfold roundDouble
    rw [hM]
    exact mul_le_mul_of_nonneg_right h3 hu.le

theorem le_roundDouble_nonneg (x y : ℚ) (hy0 : 0 ≤ y) (hyx : y ≤ x) (hy : IsDouble y) :
    y ≤ roundDouble x := by
  rcases eq_or_lt_of_le hy0 with h0 | h0
  · rw [← h0]
    exact (roundDouble_nonneg x (by linarith)).1
  · have hx0 : 0 < x := lt_of_lt_of_le h0 hyx
    have hu := ulp_pos x
    have hb := binade_mono y x h0 hyx
    rcases eq_or_lt_of_le hb with he | hlt
    · obtain ⟨M, hM⟩ := double_multiple x y (le_of_eq he.symm) hy
      have h1 : (M : ℚ) ≤ x / ulp x := by
        rw [le_div_iff₀ hu, ← hM]
        exact hyx
      have h2 := le_roundHalfEven_of_le _ M h1
      have h3 : (M : ℚ) ≤ roundHalfEven (x / ulp x) := by exact_mod_cast h2
      unfold roundDouble
      rw [hM]
      exact mul_le_mul_of_nonneg_right h3 hu.le
    · have hlogx : binade x = Int.log 2 |x| := by
        unfold binade at hlt ⊢
        have : (-1022 : ℤ) ≤ max (Int.log 2 |y|) (-1022) := le_max_right _ _
        rw [max_eq_left]
        by_contra hc
        rw [max_eq_right (by omega)] at hlt
        omega
      have h1 : (2 : ℚ) ^ binade x ≤ x := by
        rw [hlogx, abs_of_pos hx0]
        exact_mod_cast Int.zpow_log_le_self (by norm_num) hx0
      have h2 : y < (2 : ℚ) ^ binade x := by
        have h3 : y < (2 : ℚ) ^ (Int.log 2 y + 1) := by
          exact_mod_cast Int.lt_zpow_succ_log_self (by norm_num) y
        have h4 : Int.log 2 y + 1 ≤ binade x := by
          have : Int.log 2 y ≤ binade y := by
            unfold binade
            rw [abs_of_pos h0]
            exact le_max_left _ _
          omega
        exact lt_of_lt_of_le h3 (zpow_le_zpow_right₀ (by norm_num) h4)
      have h5 : (2 : ℚ) ^ binade x = ((2 ^ 52 : ℤ) : ℚ) * ulp x := by
        unfold ulp
        have h : (2 : ℚ) ^ binade x = (2 : ℚ) ^ (52 : ℤ) * (2 : ℚ) ^ (binade x - 52) := by
          rw [← zpow_add₀ (by norm_num)]
          congr 1
          ring
        rw [h]
        norm_num
      have h6 : ((2 ^ 52 : ℤ) : ℚ) ≤ x / ulp x := by
        rw [le_div_iff₀ hu, ← h5]
        exact h1
      have h7 := le_roundHalfEven_of_le _ _ h6
      have h8 : ((2 ^ 52 : ℤ) : ℚ) ≤ roundHalfEven (x / ulp x) := by exact_mod_cast h7
      have h9 : (2 : ℚ) ^ binade x ≤ roundDouble x := by
        unfold roundDouble
        rw [h5]
        exact mul_le_mul_of_nonneg_right h8 hu.le
      linarith

theorem IsDouble_neg (y : ℚ) (hy : IsDouble y) : IsDouble (-y) := by
  unfold IsDouble at *
  rw [roundDouble_neg, hy]

theorem roundDouble_le_double (x y : ℚ) (hxy : x ≤ y) (hy : IsDouble y) :
    roundDouble x ≤ y := by
  rcases le_or_lt 0 x with hx | hx
  · exact roundDouble_le_nonneg x y hx hxy hy
  · rcases le_or_lt 0 y with hy0 | hy0
    · exact (roundDouble_nonpos x hx.le).1.trans hy0
    · have h := le_roundDouble_nonneg (-x) (-y) (by linarith) (by linarith) (IsDouble_neg y hy)
      rw [roundDouble_neg] at h
      linarith

theorem double_le_roundDouble (x y : ℚ) (hyx : y ≤ x) (hy : IsDouble y) :
    y ≤ roundDouble x := by
  have h := roundDouble_le_double (-x) (-y) (by linarith) (IsDouble_neg y hy)
  rw [roundDouble_neg] at h
  linarith

theorem lerpDouble_between (prev raw amt : ℚ) (ha : 0 ≤ amt ∧ 4 * amt ≤ 1)
    (hp : IsDouble prev) (hr : IsDouble raw) :
    min prev raw ≤ lerpDouble prev raw amt ∧ lerpDouble prev raw amt ≤ max prev raw := by
  unfold lerpDouble
  rcases le_total prev raw with h | h
  · rw [min_eq_left h, max_eq_right h]
    have ht := roundDouble_nonneg (raw - prev) (by linarith)
    have hu := roundDouble_nonneg (amt * roundDouble (raw - prev)) (mul_nonneg ha.1 ht.1)
    have h1 : amt * roundDouble (raw - prev) ≤ amt * (2 * (raw - prev)) :=
      mul_le_mul_of_nonneg_left ht.2 ha.1
    have h2 : 4 * amt * (raw - prev) ≤ 1 * (raw - prev) :=
      mul_le_mul_of_nonneg_right ha.2 (by linarith)
    exact ⟨double_le_roundDouble _ _ (by linarith [hu.1]) hp,
      roundDouble_le_double _ _ (by linarith [hu.2]) hr⟩
  · rw [min_eq_right h, max_eq_left h]
    have ht := roundDouble_nonpos (raw - prev) (by linarith)
    have hu := roundDouble_nonpos (amt * roundDouble (raw - prev))
      (mul_nonpos_of_nonneg_of_nonpos ha.1 ht.1)
    have h1 : amt * (2 * (raw - prev)) ≤ amt * roundDouble (raw - prev) :=
      mul_le_mul_of_nonneg_left ht.2 ha.1
    have h2 : 4 * amt * (prev - raw) ≤ 1 * (prev - raw) :=
      mul_le_mul_of_nonneg_right ha.2 (by linarith)
    exact ⟨double_le_roundDouble _ _ (by linarith [hu.2]) hr,
      roundDouble_le_double _ _ (by linarith [hu.1]) hp⟩

theorem roundDouble_of_binade (x : ℚ) (e : ℤ) (he : -1022 ≤ e) (h1 : (2 : ℚ) ^ e ≤ x)
    (h2 : x < (2 : ℚ) ^ (e + 1)) :
    roundDouble x = roundHalfEven (x / (2 : ℚ) ^ (e - 52)) * (2 : ℚ) ^ (e - 52) := by
  have hx : 0 < x := lt_of_lt_of_le (zpow_pos (by norm_num) e) h1
  have hlog : Int.log 2 x = e := by
    apply le_antisymm
    · have := (Int.lt_zpow_iff_log_lt (by norm_num : 1 < 2) hx).mp (by exact_mod_cast h2)
      omega
    · exact (Int.zpow_le_iff_le_log (by norm_num : 1 < 2) hx).mp (by exact_mod_cast h1)
  have hb : binade x = e := by
    unfold binade
    rw [abs_of_pos hx, hlog]
    exact max_eq_left he
  unfold roundDouble ulp
  rw [hb]

theorem roundHalfEven_down (q : ℚ) (n : ℤ) (h1 : (n : ℚ) ≤ q) (h2 : q < n + 1 / 2) :
    roundHalfEven q = n := by
  have hf : ⌊q⌋ = n := Int.floor_eq_iff.mpr ⟨h1, by linarith⟩
  unfold roundHalfEven
  rw [hf, if_pos (by linarith)]

theorem roundHalfEven_up (q : ℚ) (n : ℤ) (h1 : (n : ℚ) + 1 / 2 < q) (h2 : q < n + 1) :
    roundHalfEven q = n + 1 := by
  have hf : ⌊q⌋ = n := Int.floor_eq_iff.mpr ⟨by linarith, h2⟩
  unfold roundHalfEven
  rw [hf, if_neg (by linarith), if_pos (by linarith)]

theorem roundHalfEven_tie_even (q : ℚ) (n : ℤ) (h1 : q = n + 1 / 2) (h2 : n % 2 = 0) :
    roundHalfEven q = n := by
  have hf : ⌊q⌋ = n := Int.floor_eq_iff.mpr ⟨by linarith, by linarith⟩
  unfold roundHalfEven
  rw [hf, if_neg (by linarith), if_neg (by linarith), if_pos h2]

/-! ## Facts on the concrete inputs -/

theorem envMin_inRange : RandomInRange envMin := by
  intro k a b
  exact ⟨le_refl _, min_le_max⟩

theorem mass12_depth : mass12.position.z = -2000 := by
  unfold mass12 OrganicMass.new
  rw [OrganicMass.generateOrganicShape_position]
  simp only [envMin]
  norm_num

theorem envMin_halfOpen : RandomHalfOpen envMin := by
  intro k a b hab
  show a ≤ min a b ∧ min a b < b
  rw [min_eq_left hab.le]
  exact ⟨le_refl _, hab⟩

theorem envMin_noise : NoiseInUnit envMin := by
  intro x
  show (0 : ℚ) ≤ 1 / 2 ∧ (1 / 2 : ℚ) ≤ 1
  norm_num

theorem envMin_directions : UnitDirections envMin := by
  intro k
  show (1 : ℚ) * 1 + 0 * 0 + 0 * 0 = 1
  norm_num

theorem particle150_magSq : particle150.offset.magSq ≤ 150 * 150 := by
  show (90 : ℚ) * 90 + 120 * 120 + 0 * 0 ≤ 150 * 150
  norm_num

/-- The double nearest to 0.04. -/
theorem roundDouble_amt : roundDouble (4 / 100) = 5764607523034235 / 2 ^ 57 := by
  rw [roundDouble_of_binade (4 / 100) (-5) (by norm_num) (by norm_num) (by norm_num),
    roundHalfEven_up _ 5764607523034234 (by norm_num) (by norm_num)]
  norm_num

theorem stalledBass_isDouble : IsDouble stalledBass := by
  unfold IsDouble
  rw [roundDouble_of_binade stalledBass 6 (by norm_num) (by norm_num [stalledBass])
    (by norm_num [stalledBass])]
  have h : stalledBass / (2 : ℚ) ^ ((6 : ℤ) - 52) = ((7036874417766388 : ℤ) : ℚ) := by
    norm_num [stalledBass]
  rw [h, roundHalfEven_intCast]
  norm_num [stalledBass]

theorem hundred_isDouble : IsDouble 100 := by
  unfold IsDouble
  rw [roundDouble_of_binade 100 6 (by norm_num) (by norm_num) (by norm_num)]
  have h : (100 : ℚ) / (2 : ℚ) ^ ((6 : ℤ) - 52) = ((7036874417766400 : ℤ) : ℚ) := by
    norm_num
  rw [h, roundHalfEven_intCast]
  norm_num

theorem lerpDouble_stalled : lerpDouble stalledBass 100 (roundDouble (4 / 100)) = stalledBass := by
  have hd : (100 : ℚ) - stalledBass = 3 / 2 ^ 44 := by norm_num [stalledBass]
  have s1 : roundDouble (3 / 2 ^ 44) = 3 / 2 ^ 44 := by
    rw [roundDouble_of_binade (3 / 2 ^ 44) (-43) (by norm_num) (by norm_num) (by norm_num)]
    have h : (3 / 2 ^ 44 : ℚ) / (2 : ℚ) ^ ((-43 : ℤ) - 52) = ((6755399441055744 : ℤ) : ℚ) := by
      norm_num
    rw [h, roundHalfEven_intCast]
    norm_num
  have s2 : roundDouble (5764607523034235 / 2 ^ 57 * (3 / 2 ^ 44))
      = 8646911284551352 / 2 ^ 100 := by
    rw [roundDouble_of_binade _ (-48) (by norm_num) (by norm_num) (by norm_num),
      roundHalfEven_tie_even _ 8646911284551352 (by norm_num) (by norm_num)]
    norm_num
  have s3 : roundDouble (8646911284551352 / 2 ^ 100 + stalledBass) = stalledBass := by
    rw [roundDouble_of_binade _ 6 (by norm_num) (by norm_num [stalledBass])
        (by norm_num [stalledBass]),
      roundHalfEven_down _ 7036874417766388 (by norm_num [stalledBass])
        (by norm_num [stalledBass])]
    norm_num [stalledBass]
  unfold lerpDouble
  rw [hd, s1, roundDouble_amt, s2, s3]

/-! ## Claims -/

/-- C1 (as stated, refuted): with the smoothed bass at the double
99.99999999999983 and a reading of 100, two doubles that differ, the value
`analyzeAudioSmooth` stores is the previous value again: it is equal to
`min prev raw`, not strictly above it. -/
theorem C1_smoothing_stalls :
    SafeDouble gStalled.smoothedBass ∧ SafeDouble raw100.rawBass
    ∧ gStalled.smoothedBass < raw100.rawBass
    ∧ (analyzeAudioSmoothDouble raw100 gStalled).smoothedBass = gStalled.smoothedBass
    ∧ (analyzeAudioSmoothDouble raw100 gStalled).smoothedBass
        = min gStalled.smoothedBass raw100.rawBass := by
  have hlt : stalledBass < (100 : ℚ) := by norm_num [stalledBass]
  have hstall : (analyzeAudioSmoothDouble raw100 gStalled).smoothedBass = stalledBass :=
    lerpDouble_stalled
  refine ⟨⟨stalledBass_isDouble, ?_⟩, ⟨hundred_isDouble, ?_⟩, hlt, hstall, ?_⟩
  · show |stalledBass| ≤ 2 ^ 1022
    rw [abs_of_pos (by norm_num [stalledBass])]
    norm_num [stalledBass]
  · show |(100 : ℚ)| ≤ 2 ^ 1022
    norm_num
  · rw [hstall]
    exact (min_eq_left hlt.le).symm

/-- C1 (amended): for each of the three bands, when the previous smoothed
value and the reading are doubles of magnitude at most `2 ^ 1022`, the value
`analyzeAudioSmooth` stores, which is `prev + 0.04 * (raw - prev)` with each
operation rounded to a double, lies between `min prev raw` and
`max prev raw`. -/
theorem C1_smoothed_between_rounded (raw : RawEnergy) (g : Globals)
    (hg : SafeDouble g.smoothedBass ∧ SafeDouble g.smoothedMid ∧ SafeDouble g.smoothedTreble)
    (hraw : SafeDouble raw.rawBass ∧ SafeDouble raw.rawMid ∧ SafeDouble raw.rawTreble) :
    ((analyzeAudioSmoothDouble raw g).smoothedBass
        = roundDouble (roundDouble (roundDouble (4 / 100)
            * roundDouble (raw.rawBass - g.smoothedBass)) + g.smoothedBass)
      ∧ min g.smoothedBass raw.rawBass ≤ (analyzeAudioSmoothDouble raw g).smoothedBass
      ∧ (analyzeAudioSmoothDouble raw g).smoothedBass ≤ max g.smoothedBass raw.rawBass)
    ∧ ((analyzeAudioSmoothDouble raw g).smoothedMid
        = roundDouble (roundDouble (roundDouble (4 / 100)
            * roundDouble (raw.rawMid - g.smoothedMid)) + g.smoothedMid)
      ∧ min g.smoothedMid raw.rawMid ≤ (analyzeAudioSmoothDouble raw g).smoothedMid
      ∧ (analyzeAudioSmoothDouble raw g).smoothedMid ≤ max g.smoothedMid raw.rawMid)
    ∧ ((analyzeAudioSmoothDouble raw g).smoothedTreble
        = roundDouble (roundDouble (roundDouble (4 / 100)
            * roundDouble (raw.rawTreble - g.smoothedTreble)) + g.smoothedTreble)
      ∧ min g.smoothedTreble raw.rawTreble ≤ (analyzeAudioSmoothDouble raw g).smoothedTreble
      ∧ (analyzeAudioSmoothDouble raw g).smoothedTreble
          ≤ max g.smoothedTreble raw.rawTreble) := by
  have ha : (0 : ℚ) ≤ roundDouble (4 / 100) ∧ 4 * roundDouble (4 / 100) ≤ 1 := by
    have h := roundDouble_nonneg (4 / 100) (by norm_num)
    exact ⟨h.1, by linarith [h.2]⟩
  have hb := lerpDouble_between g.smoothedBass raw.rawBass _ ha hg.1.1 hraw.1.1
  have hm := lerpDouble_between g.smoothedMid raw.rawMid _ ha hg.2.1.1 hraw.2.1.1
  have ht := lerpDouble_between g.smoothedTreble raw.rawTreble _ ha hg.2.2.1 hraw.2.2.1
  exact ⟨⟨rfl, hb.1, hb.2⟩, ⟨rfl, hm.1, hm.2⟩, ⟨rfl, ht.1, ht.2⟩⟩

/-- C2: one call of `updateCameraSystem` sets
`cameraZ' = cameraZ + 2 + 0.008 * smoothedBass`, so the depth strictly
increases whenever `smoothedBass ≥ 0`; and in every run of playing frames
that starts with `smoothedBass ≥ 0` and reads bass energies `≥ 0`, the depth
after a frame is not below the depth before it. -/
theorem C2_camera_depth_increases (env : Env) (g : Globals) :
    (updateCameraSystem env g).cameraZ = g.cameraZ + 2 + 8 / 1000 * g.smoothedBass
    ∧ (0 ≤ g.smoothedBass → g.cameraZ < (updateCameraSystem env g).cameraZ)
    ∧ (∀ (s : State) (raws : List RawEnergy) (raw : RawEnergy),
        0 ≤ s.g.smoothedBass → (∀ r ∈ raws ++ [raw], 0 ≤ r.rawBass) →
        (runFrames env raws s).g.cameraZ ≤ (runFrames env (raws ++ [raw]) s).g.cameraZ) := by
  have hz : ∀ g : Globals,
      (updateCameraSystem env g).cameraZ = g.cameraZ + 2 + 8 / 1000 * g.smoothedBass := by
    intro g
    simp only [updateCameraSystem]
    ring
  refine ⟨hz g, ?_, ?_⟩
  · intro h
    rw [hz]
    linarith
  · intro s raws raw hs hraws
    have h1 := runFrames_smoothedBass_nonneg env raws s hs
      (fun r hr => hraws r (List.mem_append_left _ hr))
    have h2 : 0 ≤ raw.rawBass := hraws raw (by simp)
    rw [runFrames_append, playingFrame_cameraZ, hz]
    have h3 := lerp_nonneg _ _ h1 h2
    simp only [analyzeAudioSmooth]
    linarith

/-- C3: with `lastEnergyLevels = [p0, p1, p2]` and current raw energies
`b, m, t`, `checkForNewInstruments` adds one Mass and one Smoke exactly when
`b - p0 > 80`, two Vines exactly when `m - p1 > 80`, one Cluster and one
Line exactly when `t - p2 > 80`, and nothing else; for the samples
`[e0, e1, e2]` then `[e0 + 90, e1, e2]` that is one Mass and one Smoke. -/
theorem C3_transient_spawn_sizes (env : Env) (s : State) (p0 p1 p2 : ℚ)
    (hlast : s.g.lastEnergyLevels = [p0, p1, p2]) :
    ((checkForNewInstruments env s).organicMasses.length
        = s.organicMasses.length + (if 80 < s.g.bassEnergy - p0 then 1 else 0)
      ∧ (checkForNewInstruments env s).smokeParticles.length
        = s.smokeParticles.length + (if 80 < s.g.bassEnergy - p0 then 1 else 0)
      ∧ (checkForNewInstruments env s).creepingVines.length
        = s.creepingVines.length + (if 80 < s.g.midEnergy - p1 then 2 else 0)
      ∧ (checkForNewInstruments env s).particleClusters.length
        = s.particleClusters.length + (if 80 < s.g.trebleEnergy - p2 then 1 else 0)
      ∧ (checkForNewInstruments env s).morphingLines.length
        = s.morphingLines.length + (if 80 < s.g.trebleEnergy - p2 then 1 else 0))
    ∧ (s.g.bassEnergy = p0 + 90 → s.g.midEnergy = p1 → s.g.trebleEnergy = p2 →
        (checkForNewInstruments env s).organicMasses.length = s.organicMasses.length + 1
        ∧ (checkForNewInstruments env s).smokeParticles.length = s.smokeParticles.length + 1
        ∧ (checkForNewInstruments env s).creepingVines.length = s.creepingVines.length
        ∧ (checkForNewInstruments env s).particleClusters.length = s.particleClusters.length
        ∧ (checkForNewInstruments env s).morphingLines.length = s.morphingLines.length) := by
  have key : ((checkForNewInstruments env s).organicMasses.length
        = s.organicMasses.length + (if 80 < s.g.bassEnergy - p0 then 1 else 0)
      ∧ (checkForNewInstruments env s).smokeParticles.length
        = s.smokeParticles.length + (if 80 < s.g.bassEnergy - p0 then 1 else 0)
      ∧ (checkForNewInstruments env s).creepingVines.length
        = s.creepingVines.length + (if 80 < s.g.midEnergy - p1 then 2 else 0)
      ∧ (checkForNewInstruments env s).particleClusters.length
        = s.particleClusters.length + (if 80 < s.g.trebleEnergy - p2 then 1 else 0)
      ∧ (checkForNewInstruments env s).morphingLines.length
        = s.morphingLines.length + (if 80 < s.g.trebleEnergy - p2 then 1 else 0)) := by
    simp only [checkForNewInstruments, mapWithIndex, foldIdx, hlast]
    by_cases hb : 80 < s.g.bassEnergy - p0 <;> by_cases hm : 80 < s.g.midEnergy - p1 <;>
      by_cases ht : 80 < s.g.trebleEnergy - p2 <;>
      simp [exceedsThreshold, spawnNewElements, hb, hm, ht]
  refine ⟨key, ?_⟩
  intro hb hm ht
  obtain ⟨k1, k2, k3, k4, k5⟩ := key
  rw [k1, k2, k3, k4, k5, hb, hm, ht]
  norm_num

/-- C4: with `random(a, b)` between `min a b` and `max a b`, a playing
`update()` of an entity whose reference depth is below `cameraZ - K` leaves
it at a depth `≥ cameraZ - bandMax`, and every playing `update()` returns
with depth `≥ cameraZ - K` (K, bandMax: Mass 2500, 1500; Cluster 2200, 1200;
Vine 2300, 1200; Smoke 3000, 2000; Line start 2400, 1200). -/
theorem C4_recycle_resets_depth (env : Env) (hr : RandomInRange env) (g : Globals)
    (hplay : g.isPlaying = true) (k : Nat) :
    (∀ m : OrganicMass,
      (m.position.z < g.cameraZ - 2500 →
        g.cameraZ - 1500 ≤ (OrganicMass.update env g k m).1.position.z)
      ∧ g.cameraZ - 2500 ≤ (OrganicMass.update env g k m).1.position.z)
    ∧ (∀ c : ParticleCluster,
      (c.position.z < g.cameraZ - 2200 →
        g.cameraZ - 1200 ≤ (ParticleCluster.update env g k c).1.position.z)
      ∧ g.cameraZ - 2200 ≤ (ParticleCluster.update env g k c).1.position.z)
    ∧ (∀ v : CreepingVine,
      (v.position.z < g.cameraZ - 2300 →
        g.cameraZ - 1200 ≤ (CreepingVine.update env g k v).1.position.z)
      ∧ g.cameraZ - 2300 ≤ (CreepingVine.update env g k v).1.position.z)
    ∧ (∀ p : SmokeParticle,
      (p.position.z < g.cameraZ - 3000 →
        g.cameraZ - 2000 ≤ (SmokeParticle.update env g k p).1.position.z)
      ∧ g.cameraZ - 3000 ≤ (SmokeParticle.update env g k p).1.position.z)
    ∧ (∀ l : MorphingLine,
      (l.startPos.z < g.cameraZ - 2400 →
        g.cameraZ - 1200 ≤ (MorphingLine.update env g k l).1.startPos.z)
      ∧ g.cameraZ - 2400 ≤ (MorphingLine.update env g k l).1.startPos.z) := by
  refine ⟨fun m => ?_, fun c => ?_, fun v => ?_, fun p => ?_, fun l => ?_⟩
  · have hrec : m.position.z < g.cameraZ - 2500 →
        g.cameraZ - 1500 ≤ (OrganicMass.update env g k m).1.position.z := by
      intro hz
      rw [(OrganicMass.mass_update_recycle env g k m hplay hz).1]
      have := (random_bounds env hr k (-200) (-1500) (by norm_num)).1
      linarith
    refine ⟨hrec, ?_⟩
    by_cases hz : m.position.z < g.cameraZ - 2500
    · have := hrec hz
      linarith
    · rw [(OrganicMass.mass_update_keep env g k m hz).1]
      exact not_lt.mp hz
  · have hrec : c.position.z < g.cameraZ - 2200 →
        g.cameraZ - 1200 ≤ (ParticleCluster.update env g k c).1.position.z := by
      intro hz
      obtain ⟨j, hj⟩ := (ParticleCluster.cluster_update_recycle env g k c hplay hz).1
      rw [hj]
      have := (random_bounds env hr j (-300) (-1200) (by norm_num)).1
      linarith
    refine ⟨hrec, ?_⟩
    by_cases hz : c.position.z < g.cameraZ - 2200
    · have := hrec hz
      linarith
    · rw [(ParticleCluster.cluster_update_keep env g k c hz).1]
      exact not_lt.mp hz
  · have hrec : v.position.z < g.cameraZ - 2300 →
        g.cameraZ - 1200 ≤ (CreepingVine.update env g k v).1.position.z := by
      intro hz
      rw [(CreepingVine.vine_update_recycle env g k v hplay hz).1]
      have := (random_bounds env hr k (-400) (-1200) (by norm_num)).1
      linarith
    refine ⟨hrec, ?_⟩
    by_cases hz : v.position.z < g.cameraZ - 2300
    · have := hrec hz
      linarith
    · rw [(CreepingVine.vine_update_keep env g k v hz).1]
      exact not_lt.mp hz
  · have hrec : p.position.z < g.cameraZ - 3000 →
        g.cameraZ - 2000 ≤ (SmokeParticle.update env g k p).1.position.z := by
      intro hz
      rw [SmokeParticle.smoke_update_recycle env g k p hplay hz]
      have := (random_bounds env hr (k + 1) (-500) (-2000) (by norm_num)).1
      linarith
    refine ⟨hrec, ?_⟩
    by_cases hz : p.position.z < g.cameraZ - 3000
    · have := hrec hz
      linarith
    · rw [SmokeParticle.smoke_update_keep env g k p hz]
      exact not_lt.mp hz
  · have hrec : l.startPos.z < g.cameraZ - 2400 →
        g.cameraZ - 1200 ≤ (MorphingLine.update env g k l).1.startPos.z := by
      intro hz
      obtain ⟨j, hj, _⟩ := MorphingLine.line_update_recycle env g k l hplay hz
      rw [hj]
      have := (random_bounds env hr j (-400) (-1200) (by norm_num)).1
      linarith
    refine ⟨hrec, ?_⟩
    by_cases hz : l.startPos.z < g.cameraZ - 2400
    · have := hrec hz
      linarith
    · rw [(MorphingLine.line_update_keep env g k l hz).1]
      exact not_lt.mp hz

/-- C5: for Mass, ParticleCluster, Vine and MorphingLine, any number of
`update()` calls none of which crosses the recycling threshold (the
reference depth is `≥ cameraZ - K` at each call) leaves the length of the
substructure list, and the reference depth, as they were. -/
theorem C5_count_invariant_without_recycle (env : Env) (gs : List Globals) (k : Nat) :
    (∀ m : OrganicMass, (∀ g ∈ gs, g.cameraZ - 2500 ≤ m.position.z) →
      (updates (OrganicMass.update env) gs (m, k)).1.vertices.length = m.vertices.length
      ∧ (updates (OrganicMass.update env) gs (m, k)).1.position.z = m.position.z)
    ∧ (∀ c : ParticleCluster, (∀ g ∈ gs, g.cameraZ - 2200 ≤ c.position.z) →
      (updates (ParticleCluster.update env) gs (c, k)).1.particles.length = c.particles.length
      ∧ (updates (ParticleCluster.update env) gs (c, k)).1.position.z = c.position.z)
    ∧ (∀ v : CreepingVine, (∀ g ∈ gs, g.cameraZ - 2300 ≤ v.position.z) →
      (updates (CreepingVine.update env) gs (v, k)).1.segments.length = v.segments.length
      ∧ (updates (CreepingVine.update env) gs (v, k)).1.position.z = v.position.z)
    ∧ (∀ l : MorphingLine, (∀ g ∈ gs, g.cameraZ - 2400 ≤ l.startPos.z) →
      (updates (MorphingLine.update env) gs (l, k)).1.controlPoints.length
        = l.controlPoints.length
      ∧ (updates (MorphingLine.update env) gs (l, k)).1.startPos.z = l.startPos.z) := by
  refine ⟨fun m hm => ?_, fun c hc => ?_, fun v hv => ?_, fun l hl => ?_⟩
  · apply updates_invariant (OrganicMass.update env)
      (fun x => x.vertices.length = m.vertices.length ∧ x.position.z = m.position.z) gs
    · intro g hg k1 x hx
      have hz : ¬ x.position.z < g.cameraZ - 2500 := by
        rw [hx.2]
        exact not_lt.mpr (hm g hg)
      have h := OrganicMass.mass_update_keep env g k1 x hz
      exact ⟨h.2.trans hx.1, by rw [h.1]; exact hx.2⟩
    · exact ⟨rfl, rfl⟩
  · apply updates_invariant (ParticleCluster.update env)
      (fun x => x.particles.length = c.particles.length ∧ x.position.z = c.position.z) gs
    · intro g hg k1 x hx
      have hz : ¬ x.position.z < g.cameraZ - 2200 := by
        rw [hx.2]
        exact not_lt.mpr (hc g hg)
      have h := ParticleCluster.cluster_update_keep env g k1 x hz
      exact ⟨h.2.1.trans hx.1, by rw [h.1]; exact hx.2⟩
    · exact ⟨rfl, rfl⟩
  · apply updates_invariant (CreepingVine.update env)
      (fun x => x.segments.length = v.segments.length ∧ x.position.z = v.position.z) gs
    · intro g hg k1 x hx
      have hz : ¬ x.position.z < g.cameraZ - 2300 := by
        rw [hx.2]
        exact not_lt.mpr (hv g hg)
      have h := CreepingVine.vine_update_keep env g k1 x hz
      exact ⟨h.2.1.trans hx.1, by rw [h.1]; exact hx.2⟩
    · exact ⟨rfl, rfl⟩
  · apply updates_invariant (MorphingLine.update env)
      (fun x => x.controlPoints.length = l.controlPoints.length ∧ x.startPos.z = l.startPos.z)
      gs
    · intro g hg k1 x hx
      have hz : ¬ x.startPos.z < g.cameraZ - 2400 := by
        rw [hx.2]
        exact not_lt.mpr (hl g hg)
      have h := MorphingLine.line_update_keep env g k1 x hz
      exact ⟨h.2.trans hx.1, by rw [h.1]; exact hx.2⟩
    · exact ⟨rfl, rfl⟩

/-- C6 (as stated, refuted): a ParticleCluster built with 40 particles and
recycled still has 40 particles, the count it had before, whether every
draw returns the smaller bound or the midpoint; a count drawn afresh from
`random(40, 80)` during that recycle would have been 60 in the second
case. -/
theorem C6_cluster_count_carried_over :
    gPlaying.isPlaying = true
    ∧ cluster40.position.z < gPlaying.cameraZ - 2200
    ∧ cluster40.particles.length = 40
    ∧ (ParticleCluster.update envMin gPlaying 0 cluster40).1.particles.length = 40
    ∧ (ParticleCluster.update envMid gPlaying 0 cluster40).1.particles.length = 40
    ∧ (∀ j : Nat, ⌊envMid.random j 40 80⌋.toNat = 60) := by
  have hz : cluster40.position.z < gPlaying.cameraZ - 2200 := by
    rw [cluster40_facts.2.2]
    norm_num [gPlaying, gPaused]
  refine ⟨rfl, hz, cluster40_facts.1, ?_, ?_, ?_⟩
  · rw [(ParticleCluster.cluster_update_recycle envMin gPlaying 0 cluster40 rfl hz).2.1,
      cluster40_facts.2.1]
    rfl
  · rw [(ParticleCluster.cluster_update_recycle envMid gPlaying 0 cluster40 rfl hz).2.1,
      cluster40_facts.2.1]
    rfl
  · intro j
    have hf : ⌊((40 + 80) / 2 : ℚ)⌋ = 60 := by norm_num
    simp only [envMid, hf]
    rfl

/-- C6 (amended): on a recycle event a Mass gets `floor(random(12, 20))`
vertices and a MorphingLine `floor(random(8, 16)) + 1` control points, each
from a draw made during that recycle; a ParticleCluster is rebuilt with
`baseCount` particles and a Vine with `maxSegments` segments, the counts
drawn once in the constructor and kept in the entity, so the recycle draws
no new count for them. -/
theorem C6_recycle_counts (env : Env) (g : Globals) (hplay : g.isPlaying = true) (k : Nat) :
    (∀ m : OrganicMass, m.position.z < g.cameraZ - 2500 →
      (OrganicMass.update env g k m).1.vertices.length = ⌊env.random (k + 1) 12 20⌋.toNat)
    ∧ (∀ l : MorphingLine, l.startPos.z < g.cameraZ - 2400 →
      (MorphingLine.update env g k l).1.controlPoints.length
        = (⌊env.random (k + l.controlPoints.length + 2) 8 16⌋ + 1).toNat)
    ∧ (∀ c : ParticleCluster, c.position.z < g.cameraZ - 2200 →
      (ParticleCluster.update env g k c).1.particles.length = c.baseCount.toNat
      ∧ (ParticleCluster.update env g k c).1.baseCount = c.baseCount)
    ∧ (∀ v : CreepingVine, v.position.z < g.cameraZ - 2300 →
      (CreepingVine.update env g k v).1.segments.length = v.maxSegments.toNat
      ∧ (CreepingVine.update env g k v).1.maxSegments = v.maxSegments)
    ∧ (∀ (cameraZ : ℚ) (j : Nat),
      (ParticleCluster.new env cameraZ j).1.baseCount = ⌊env.random (j + 3) 40 80⌋
      ∧ (ParticleCluster.new env cameraZ j).1.particles.length
        = (ParticleCluster.new env cameraZ j).1.baseCount.toNat)
    ∧ (∀ (cameraZ : ℚ) (j : Nat),
      (CreepingVine.new env cameraZ j).1.maxSegments = ⌊env.random (j + 3) 15 30⌋
      ∧ (CreepingVine.new env cameraZ j).1.segments.length
        = (CreepingVine.new env cameraZ j).1.maxSegments.toNat) := by
  refine ⟨fun m hz => ?_, fun l hz => ?_, fun c hz => ?_, fun v hz => ?_, fun cz j => ?_,
    fun cz j => ?_⟩
  · exact (OrganicMass.mass_update_recycle env g k m hplay hz).2
  · exact MorphingLine.line_update_recycle_count env g k l hplay hz
  · exact (ParticleCluster.cluster_update_recycle env g k c hplay hz).2
  · exact (CreepingVine.vine_update_recycle env g k v hplay hz).2
  · have h := ParticleCluster.cluster_new_length env cz j
    exact ⟨h.2.1, by rw [h.1, h.2.1]⟩
  · have h := CreepingVine.vine_new_length env cz j
    exact ⟨h.2.1, by rw [h.1, h.2.1]⟩

/-- C7: while `isPlaying` is false, any number of `update()` calls leaves an
entity of each of the five kinds, every field of it, and the number of
random draws made exactly as they were, whatever the other variables are. -/
theorem C7_pause_changes_nothing (env : Env) (gs : List Globals)
    (hpaused : ∀ g ∈ gs, g.isPlaying = false) (k : Nat) :
    (∀ m : OrganicMass, updates (OrganicMass.update env) gs (m, k) = (m, k))
    ∧ (∀ c : ParticleCluster, updates (ParticleCluster.update env) gs (c, k) = (c, k))
    ∧ (∀ v : CreepingVine, updates (CreepingVine.update env) gs (v, k) = (v, k))
    ∧ (∀ p : SmokeParticle, updates (SmokeParticle.update env) gs (p, k) = (p, k))
    ∧ (∀ l : MorphingLine, updates (MorphingLine.update env) gs (l, k) = (l, k)) := by
  refine ⟨fun m => ?_, fun c => ?_, fun v => ?_, fun p => ?_, fun l => ?_⟩
  · exact updates_fixed _ gs
      (fun g hg k1 x => OrganicMass.mass_update_paused env g k1 x (hpaused g hg)) _
  · exact updates_fixed _ gs
      (fun g hg k1 x => ParticleCluster.cluster_update_paused env g k1 x (hpaused g hg)) _
  · exact updates_fixed _ gs
      (fun g hg k1 x => CreepingVine.vine_update_paused env g k1 x (hpaused g hg)) _
  · exact updates_fixed _ gs
      (fun g hg k1 x => SmokeParticle.smoke_update_paused env g k1 x (hpaused g hg)) _
  · exact updates_fixed _ gs
      (fun g hg k1 x => MorphingLine.line_update_paused env g k1 x (hpaused g hg)) _

/-- C8: after `initializeOrganicSystems` the pools have 8, 12, 6, 40 and 8
members; `updateOrganicSystems` followed by `checkForNewInstruments`, a whole
playing frame and a `draw` in any state leave no pool shorter than it was;
so after any run of frames, and after any sequence of events, that follows
`setup` every pool has at least its target size. -/
theorem C8_pool_sizes_never_shrink (env : Env) :
    (∀ s : State,
      (initializeOrganicSystems env s).organicMasses.length = 8
      ∧ (initializeOrganicSystems env s).particleClusters.length = 12
      ∧ (initializeOrganicSystems env s).creepingVines.length = 6
      ∧ (initializeOrganicSystems env s).smokeParticles.length = 40
      ∧ (initializeOrganicSystems env s).morphingLines.length = 8)
    ∧ (∀ s : State, SizesLe s (checkForNewInstruments env (updateOrganicSystems env s)))
    ∧ (∀ (raw : RawEnergy) (s : State),
      SizesLe s (playingFrame env raw s) ∧ SizesLe s (draw env raw s))
    ∧ (∀ (status : Option String) (btn : String) (raws : List RawEnergy),
      AtLeastTarget (runFrames env raws (setup env status btn)))
    ∧ (∀ (status : Option String) (btn : String) (events : List Event),
      AtLeastTarget (run env events (setup env status btn))) := by
  refine ⟨initializeOrganicSystems_sizes env, fun s => ?_, fun raw s => ?_,
    fun status btn raws => ?_, fun status btn events => ?_⟩
  · exact SizesLe_trans (updateOrganicSystems_sizesLe env s) (checkForNewInstruments_sizes env _)
  · exact ⟨playingFrame_sizesLe env raw s, draw_sizesLe env raw s⟩
  · exact AtLeastTarget_of_sizesLe (setup_atLeastTarget env status btn) (runFrames_sizesLe _ _ _)
  · exact AtLeastTarget_of_sizesLe (setup_atLeastTarget env status btn) (run_sizesLe _ _ _)

/-- C9: with `random(a, b)` between `min a b` and `max a b`: a playing frame
whose bass reading is in `[0, 255]` keeps every entity in the depth band of
its kind (`cameraZ - K ≤ depth ≤ cameraZ - nearMin`, with K and nearMin 2500
and 200 for Mass, 2200 and 300 for Cluster, 2300 and 400 for Vine, 3000 and
500 for Smoke, 2400 and 400 for the start of a Line); `setup` builds the
pools inside the bands at camera depth 0; hence the bands hold after every
run of playing frames that follows `setup` and the start of playback, and
after every sequence of events that follows `setup`, whenever all readings
are in `[0, 255]`. -/
theorem C9_depth_band_invariant (env : Env) (hr : RandomInRange env) :
    (∀ (raw : RawEnergy) (s : State), s.g.isPlaying = true → 0 ≤ s.g.smoothedBass →
      RawInRange raw → InBand s → InBand (playingFrame env raw s))
    ∧ (∀ (status : Option String) (btn : String),
      (setup env status btn).g.cameraZ = 0 ∧ InBand (setup env status btn))
    ∧ (∀ (status : Option String) (btn : String) (raws : List RawEnergy),
      (∀ raw ∈ raws, RawInRange raw) →
      (run env [Event.soundLoaded, Event.initializeAudio true, Event.togglePlay]
        (setup env status btn)).g.isPlaying = true
      ∧ InBand (runFrames env raws
        (run env [Event.soundLoaded, Event.initializeAudio true, Event.togglePlay]
          (setup env status btn))))
    ∧ (∀ (status : Option String) (btn : String) (events : List Event),
      (∀ e ∈ events, EventInRange e) → InBand (run env events (setup env status btn))) := by
  have hsetup := setup_facts env hr
  have hstart : ∀ (status : Option String) (btn : String),
      (setup env status btn).g.songPlaying = true → (setup env status btn).g.isPlaying = true := by
    intro status btn h
    rw [(hsetup status btn).2.2.1] at h
    exact absurd h (by decide)
  refine ⟨fun raw s hplay hsb hraw h => playingFrame_inBand env hr raw s hplay hsb hraw.1.1 h,
    fun status btn => ⟨(hsetup status btn).1, (hsetup status btn).2.2.2.2.2⟩,
    fun status btn raws hraws => ?_, fun status btn events hev => ?_⟩
  · have hinv := run_invariant env hr
      [Event.soundLoaded, Event.initializeAudio true, Event.togglePlay]
      (fun e he => by
        simp only [List.mem_cons, List.mem_singleton, List.not_mem_nil, or_false] at he
        rcases he with he | he | he <;> rw [he] <;> exact trivial)
      (setup env status btn) (hstart status btn)
      (by rw [(hsetup status btn).2.1]) (hsetup status btn).2.2.2.2.2
    have hplaying : (run env [Event.soundLoaded, Event.initializeAudio true, Event.togglePlay]
        (setup env status btn)).g.isPlaying = true := by
      simp [run, step, soundLoaded, initializeAudio, togglePlay, updateStatus_eq,
        (hsetup status btn).2.2.1]
    exact ⟨hplaying, runFrames_inBand env hr raws hraws _ hplaying hinv.2.1 hinv.2.2⟩
  · exact (run_invariant env hr events hev (setup env status btn) (hstart status btn)
      (by rw [(hsetup status btn).2.1]) (hsetup status btn).2.2.2.2.2).2.2

/-- C10: when `audioContextInitialized` or `audioLoaded` is false,
`togglePlay` changes nothing but the status message: `isPlaying` and the
playing state of the song stay as they are, and calling it again any number
of times gives the state one call gives. So while the sound is not loaded,
no number of `togglePlay` calls, and no sequence of events without a
successful load, sets `isPlaying` to true. -/
theorem C10_togglePlay_without_preconditions (g : Globals)
    (hpre : g.audioContextInitialized = false ∨ g.audioLoaded = false) :
    togglePlay g =
      { g with
        statusText := g.statusText.map (fun _ =>
          if g.audioContextInitialized = false then "initialize audio first"
          else "audio file not found") }
    ∧ (togglePlay g).isPlaying = g.isPlaying
    ∧ (togglePlay g).songPlaying = g.songPlaying
    ∧ (∀ n : Nat, togglePlay^[n + 1] g = togglePlay g)
    ∧ (g.audioLoaded = false → g.isPlaying = false →
        ∀ n : Nat, (togglePlay^[n] g).isPlaying = false ∧ (togglePlay^[n] g).audioLoaded = false)
    ∧ (∀ (env : Env) (s : State) (events : List Event), s.g = g →
        g.audioLoaded = false → g.isPlaying = false →
        (∀ e ∈ events, e ≠ Event.soundLoaded) →
        (run env events s).g.isPlaying = false ∧ (run env events s).g.audioLoaded = false) := by
  have h1 := togglePlay_unmet g hpre
  have hiter : ∀ n : Nat, togglePlay^[n + 1] g = togglePlay g := by
    intro n
    induction n with
    | zero => rfl
    | succ n ih =>
      rw [Function.iterate_succ_apply', ih]
      exact togglePlay_twice g hpre
  refine ⟨h1, by rw [h1], by rw [h1], hiter, ?_, ?_⟩
  · intro hload hplay n
    cases n with
    | zero => exact ⟨hplay, hload⟩
    | succ n =>
      rw [hiter n, h1]
      exact ⟨hplay, hload⟩
  · intro env s events hs hload hplay hev
    have h := run_keeps_unloaded env events hev s (by rw [hs]; exact hload)
      (by rw [hs]; exact hplay)
    exact ⟨h.2, h.1⟩

/-- C11: starting from smoothed values 0, after any number of
`analyzeAudioSmooth` calls whose readings all lie in an interval `[lo, hi]`
that contains 0 (in particular `[0, 255]`), every smoothed value lies in
`[lo, hi]`; and from any start, every smoothed value lies between the
smallest and the largest of its start value and the readings of its band. -/
theorem C11_smoothed_within_history (raws : List RawEnergy) (g : Globals) :
    (∀ lo hi : ℚ, lo ≤ 0 → 0 ≤ hi →
      g.smoothedBass = 0 → g.smoothedMid = 0 → g.smoothedTreble = 0 →
      (∀ raw ∈ raws, (lo ≤ raw.rawBass ∧ raw.rawBass ≤ hi) ∧ (lo ≤ raw.rawMid ∧ raw.rawMid ≤ hi)
        ∧ (lo ≤ raw.rawTreble ∧ raw.rawTreble ≤ hi)) →
      (lo ≤ (smoothRun raws g).smoothedBass ∧ (smoothRun raws g).smoothedBass ≤ hi)
      ∧ (lo ≤ (smoothRun raws g).smoothedMid ∧ (smoothRun raws g).smoothedMid ≤ hi)
      ∧ (lo ≤ (smoothRun raws g).smoothedTreble ∧ (smoothRun raws g).smoothedTreble ≤ hi))
    ∧ (g.smoothedBass = 0 → g.smoothedMid = 0 → g.smoothedTreble = 0 →
      (∀ raw ∈ raws, RawInRange raw) →
      (0 ≤ (smoothRun raws g).smoothedBass ∧ (smoothRun raws g).smoothedBass ≤ 255)
      ∧ (0 ≤ (smoothRun raws g).smoothedMid ∧ (smoothRun raws g).smoothedMid ≤ 255)
      ∧ (0 ≤ (smoothRun raws g).smoothedTreble ∧ (smoothRun raws g).smoothedTreble ≤ 255))
    ∧ ((minOf g.smoothedBass (raws.map RawEnergy.rawBass) ≤ (smoothRun raws g).smoothedBass
        ∧ (smoothRun raws g).smoothedBass ≤ maxOf g.smoothedBass (raws.map RawEnergy.rawBass))
      ∧ (minOf g.smoothedMid (raws.map RawEnergy.rawMid) ≤ (smoothRun raws g).smoothedMid
        ∧ (smoothRun raws g).smoothedMid ≤ maxOf g.smoothedMid (raws.map RawEnergy.rawMid))
      ∧ (minOf g.smoothedTreble (raws.map RawEnergy.rawTreble)
          ≤ (smoothRun raws g).smoothedTreble
        ∧ (smoothRun raws g).smoothedTreble
          ≤ maxOf g.smoothedTreble (raws.map RawEnergy.rawTreble))) := by
  have hint : ∀ lo hi : ℚ, lo ≤ 0 → 0 ≤ hi →
      g.smoothedBass = 0 → g.smoothedMid = 0 → g.smoothedTreble = 0 →
      (∀ raw ∈ raws, (lo ≤ raw.rawBass ∧ raw.rawBass ≤ hi) ∧ (lo ≤ raw.rawMid ∧ raw.rawMid ≤ hi)
        ∧ (lo ≤ raw.rawTreble ∧ raw.rawTreble ≤ hi)) →
      (lo ≤ (smoothRun raws g).smoothedBass ∧ (smoothRun raws g).smoothedBass ≤ hi)
      ∧ (lo ≤ (smoothRun raws g).smoothedMid ∧ (smoothRun raws g).smoothedMid ≤ hi)
      ∧ (lo ≤ (smoothRun raws g).smoothedTreble ∧ (smoothRun raws g).smoothedTreble ≤ hi) := by
    intro lo hi hlo hhi hb hm ht hraws
    refine ⟨smoothRun_within lo hi raws g (by rw [hb]; exact ⟨hlo, hhi⟩)
        (fun raw hraw => (hraws raw hraw).1),
      smoothRun_within_mid lo hi raws g (by rw [hm]; exact ⟨hlo, hhi⟩)
        (fun raw hraw => (hraws raw hraw).2.1),
      smoothRun_within_treble lo hi raws g (by rw [ht]; exact ⟨hlo, hhi⟩)
        (fun raw hraw => (hraws raw hraw).2.2)⟩
  refine ⟨hint, fun hb hm ht hraws => hint 0 255 (le_refl _) (by norm_num) hb hm ht hraws,
    ?_, ?_, ?_⟩
  · apply smoothRun_within
    · exact ⟨(minOf_le _ _).1, (le_maxOf _ _).1⟩
    · intro raw hraw
      exact ⟨(minOf_le _ _).2 _ (List.mem_map_of_mem _ hraw),
        (le_maxOf _ _).2 _ (List.mem_map_of_mem _ hraw)⟩
  · apply smoothRun_within_mid
    · exact ⟨(minOf_le _ _).1, (le_maxOf _ _).1⟩
    · intro raw hraw
      exact ⟨(minOf_le _ _).2 _ (List.mem_map_of_mem _ hraw),
        (le_maxOf _ _).2 _ (List.mem_map_of_mem _ hraw)⟩
  · apply smoothRun_within_treble
    · exact ⟨(minOf_le _ _).1, (le_maxOf _ _).1⟩
    · intro raw hraw
      exact ⟨(minOf_le _ _).2 _ (List.mem_map_of_mem _ hraw),
        (le_maxOf _ _).2 _ (List.mem_map_of_mem _ hraw)⟩

/-- C12: with every `random(a, b)` in `[a, b)`, an entity built by its
constructor and then put through any number of `update()` calls, recycles
included, has 12 to 20 vertices (Mass), 40 to 80 particles (Cluster), 15 to
30 segments (Vine), 8 to 16 control points (Line), so never fewer than 2;
and the divisors `vertexCount`, `maxSegments` and `segments` used while
building are at least 12, 15 and 8, so never zero. -/
theorem C12_substructure_counts_in_range (env : Env) (hr : RandomHalfOpen env) (cameraZ : ℚ)
    (k : Nat) (gs : List Globals) :
    (12 ≤ (updates (OrganicMass.update env) gs (OrganicMass.new env cameraZ k)).1.vertices.length
      ∧ (updates (OrganicMass.update env) gs (OrganicMass.new env cameraZ k)).1.vertices.length
        ≤ 20)
    ∧ (40 ≤ (updates (ParticleCluster.update env) gs
          (ParticleCluster.new env cameraZ k)).1.particles.length
      ∧ (updates (ParticleCluster.update env) gs
          (ParticleCluster.new env cameraZ k)).1.particles.length ≤ 80)
    ∧ (15 ≤ (updates (CreepingVine.update env) gs
          (CreepingVine.new env cameraZ k)).1.segments.length
      ∧ (updates (CreepingVine.update env) gs
          (CreepingVine.new env cameraZ k)).1.segments.length ≤ 30)
    ∧ (8 ≤ (updates (MorphingLine.update env) gs
          (MorphingLine.new env cameraZ k)).1.controlPoints.length
      ∧ (updates (MorphingLine.update env) gs
          (MorphingLine.new env cameraZ k)).1.controlPoints.length ≤ 16)
    ∧ (∀ j : Nat, 12 ≤ ⌊env.random j 12 20⌋ ∧ (⌊env.random j 12 20⌋ : ℚ) ≠ 0)
    ∧ (15 ≤ (updates (CreepingVine.update env) gs
          (CreepingVine.new env cameraZ k)).1.maxSegments
      ∧ ((updates (CreepingVine.update env) gs
          (CreepingVine.new env cameraZ k)).1.maxSegments : ℚ) ≠ 0)
    ∧ (∀ j : Nat, 8 ≤ ⌊env.random j 8 16⌋ ∧ (⌊env.random j 8 16⌋ : ℚ) ≠ 0) := by
  have hmass := updates_invariant (OrganicMass.update env)
    (fun m => 12 ≤ m.vertices.length ∧ m.vertices.length ≤ 19) gs
    (fun g _ k1 x hx => mass_update_count env hr g k1 x hx) (OrganicMass.new env cameraZ k)
    (by
      beta_reduce
      rw [mass_new_count]
      have hf := floor_random_mass env hr (k + 5)
      omega)
  have hcluster := updates_invariant (ParticleCluster.update env)
    (fun c => (40 ≤ c.baseCount ∧ c.baseCount ≤ 79) ∧ c.particles.length = c.baseCount.toNat) gs
    (fun g _ k1 x hx => cluster_update_count env g k1 x 40 79 hx)
    (ParticleCluster.new env cameraZ k)
    (by
      have hn := ParticleCluster.cluster_new_length env cameraZ k
      have hf := floor_random_cluster env hr (k + 3)
      beta_reduce
      rw [hn.1, hn.2.1]
      exact ⟨⟨hf.1, by omega⟩, rfl⟩)
  have hvine := updates_invariant (CreepingVine.update env)
    (fun v => (15 ≤ v.maxSegments ∧ v.maxSegments ≤ 29) ∧ v.segments.length = v.maxSegments.toNat)
    gs (fun g _ k1 x hx => vine_update_count env g k1 x 15 29 hx)
    (CreepingVine.new env cameraZ k)
    (by
      have hn := CreepingVine.vine_new_length env cameraZ k
      have hf := floor_random_vine env hr (k + 3)
      beta_reduce
      rw [hn.1, hn.2.1]
      exact ⟨⟨hf.1, by omega⟩, rfl⟩)
  have hline := updates_invariant (MorphingLine.update env)
    (fun l => 9 ≤ l.controlPoints.length ∧ l.controlPoints.length ≤ 16) gs
    (fun g _ k1 x hx => line_update_count env hr g k1 x hx) (MorphingLine.new env cameraZ k)
    (by
      beta_reduce
      rw [line_new_count]
      have hf := floor_random_line env hr (k + 7)
      omega)
  simp only at hmass hcluster hvine hline
  refine ⟨⟨hmass.1, by omega⟩, ?_, ?_, ⟨by omega, hline.2⟩, ?_, ?_, ?_⟩
  · rw [hcluster.2]
    omega
  · rw [hvine.2]
    omega
  · intro j
    have hf := floor_random_mass env hr j
    refine ⟨hf.1, ?_⟩
    have h0 : ⌊env.random j 12 20⌋ ≠ 0 := by omega
    exact_mod_cast h0
  · refine ⟨hvine.1.1, ?_⟩
    have h0 : (updates (CreepingVine.update env) gs
        (CreepingVine.new env cameraZ k)).1.maxSegments ≠ 0 := by omega
    exact_mod_cast h0
  · intro j
    have hf := floor_random_line env hr j
    refine ⟨hf.1, ?_⟩
    have h0 : ⌊env.random j 8 16⌋ ≠ 0 := by omega
    exact_mod_cast h0

/-- C13: with noise values in `[0, 1]` and random directions of length 1,
one run of the callback of `particles.forEach` with `smoothedTreble ≥ 0`
gives `|offset'| ≤ 0.98 * (|offset| + noise * smoothedTreble * 0.01)`; so
with `smoothedTreble` in `[0, 255]` every bound `M ≥ 124.95` on the length
of a particle's offset, in particular 150, holds after any number of
`update()` calls. When `random(a, b)` lies between `min a b` and `max a b`
the particles `generateParticleCloud` builds have offsets of length at most
150, so the bound holds for every particle of a cluster through any number
of `update()` calls, recycles included. -/
theorem C13_particle_offsets_bounded (env : Env) (hn : NoiseInUnit env)
    (hd : UnitDirections env) :
    (∀ (g : Globals) (k index : Nat) (particle : Particle), 0 ≤ g.smoothedTreble →
      Real.sqrt ((ParticleCluster.moveParticle env g k index particle).2.offset.magSq : ℝ)
        ≤ 98 / 100 * (Real.sqrt (particle.offset.magSq : ℝ)
          + ((env.noise (particle.noiseOffset + 4 / 1000) * (g.smoothedTreble * (1 / 100)) : ℚ)
              : ℝ)))
    ∧ (∀ (cs : List (Globals × Nat × Nat)) (particle : Particle),
      (∀ c ∈ cs, 0 ≤ c.1.smoothedTreble ∧ c.1.smoothedTreble ≤ 255) →
      particle.offset.magSq ≤ 150 * 150 →
      (moveParticleRun env cs particle).offset.magSq ≤ 150 * 150
      ∧ Real.sqrt ((moveParticleRun env cs particle).offset.magSq : ℝ) ≤ 150)
    ∧ (∀ (M : ℚ) (cs : List (Globals × Nat × Nat)) (particle : Particle), 12495 / 100 ≤ M →
      (∀ c ∈ cs, 0 ≤ c.1.smoothedTreble ∧ c.1.smoothedTreble ≤ 255) →
      particle.offset.magSq ≤ M * M →
      (moveParticleRun env cs particle).offset.magSq ≤ M * M)
    ∧ (RandomInRange env →
      (∀ (cameraZ : ℚ) (k : Nat),
        ∀ particle ∈ (ParticleCluster.new env cameraZ k).1.particles,
          particle.offset.magSq ≤ 150 * 150)
      ∧ (∀ (gs : List Globals) (c : ParticleCluster) (k : Nat),
        (∀ g ∈ gs, 0 ≤ g.smoothedTreble ∧ g.smoothedTreble ≤ 255) →
        (∀ particle ∈ c.particles, particle.offset.magSq ≤ 150 * 150) →
        ∀ particle ∈ (updates (ParticleCluster.update env) gs (c, k)).1.particles,
          particle.offset.magSq ≤ 150 * 150 ∧ Real.sqrt (particle.offset.magSq : ℝ) ≤ 150)) := by
  have h150 : ∀ v : Vec3, v.magSq ≤ 150 * 150 → Real.sqrt (v.magSq : ℝ) ≤ 150 := by
    intro v hv
    have h := sqrt_magSq_le v 150 (by norm_num) hv
    exact_mod_cast h
  refine ⟨fun g k index particle ht => moveParticle_step_sqrt env hn hd g k index particle ht,
    fun cs particle hcs ho => ?_,
    fun M cs particle hM hcs ho => moveParticleRun_keeps_bound env hn hd cs particle hcs M hM ho,
    fun hr => ⟨fun cameraZ k => ?_, fun gs c k hgs hc particle hp => ?_⟩⟩
  · have h := moveParticleRun_keeps_bound env hn hd cs particle hcs 150 (by norm_num) ho
    exact ⟨h, h150 _ h⟩
  · unfold ParticleCluster.new
    exact generateParticleCloud_all env hr hd _ _
  · have hall := updates_invariant (ParticleCluster.update env)
      (fun x => ∀ q ∈ x.particles, q.offset.magSq ≤ 150 * 150) gs
      (fun g hg k1 x hx => cluster_update_all env hr hn hd g (hgs g hg) k1 x hx) (c, k) hc
    have h := hall particle hp
    exact ⟨h, h150 _ h⟩

/-! ## The claims at concrete inputs -/

/-- C1 (amended) at the readings 100 after silence: the new smoothed bass
lies between 0 and 100. -/
theorem C1_smoothed_between_rounded_witness :
    (SafeDouble gPaused.smoothedBass ∧ SafeDouble raw100.rawBass)
    ∧ min gPaused.smoothedBass raw100.rawBass
        ≤ (analyzeAudioSmoothDouble raw100 gPaused).smoothedBass
    ∧ (analyzeAudioSmoothDouble raw100 gPaused).smoothedBass
        ≤ max gPaused.smoothedBass raw100.rawBass :=
  have h0 : SafeDouble (0 : ℚ) := ⟨roundDouble_zero, by norm_num⟩
  have h100 : SafeDouble (100 : ℚ) := ⟨hundred_isDouble, by norm_num⟩
  ⟨⟨h0, h100⟩,
    (C1_smoothed_between_rounded raw100 gPaused ⟨h0, h0, h0⟩ ⟨h100, h100, h100⟩).1.2⟩

/-- C2 at camera depth 3000 with no bass: the depth grows. -/
theorem C2_camera_depth_increases_witness :
    gPaused.cameraZ < (updateCameraSystem envMin gPaused).cameraZ :=
  (C2_camera_depth_increases envMin gPaused).2.1 (by norm_num [gPaused, Globals.initial])

/-- C3 at the samples `[10, 20, 30]` then `[100, 20, 30]`: one Mass and one
Smoke more, the other pools as they were. -/
theorem C3_transient_spawn_sizes_witness :
    stateOnset.g.lastEnergyLevels = [10, 20, 30]
    ∧ ((checkForNewInstruments envMin stateOnset).organicMasses.length
        = stateOnset.organicMasses.length + 1
      ∧ (checkForNewInstruments envMin stateOnset).smokeParticles.length
        = stateOnset.smokeParticles.length + 1
      ∧ (checkForNewInstruments envMin stateOnset).creepingVines.length
        = stateOnset.creepingVines.length
      ∧ (checkForNewInstruments envMin stateOnset).particleClusters.length
        = stateOnset.particleClusters.length
      ∧ (checkForNewInstruments envMin stateOnset).morphingLines.length
        = stateOnset.morphingLines.length) :=
  ⟨rfl, (C3_transient_spawn_sizes envMin stateOnset 10 20 30 rfl).2
    (by show (100 : ℚ) = 10 + 90; norm_num) rfl rfl⟩

/-- C4 at a mass 5000 behind the camera: the playing update brings it to
within 1500 of the camera. -/
theorem C4_recycle_resets_depth_witness :
    RandomInRange envMin ∧ gPlaying.isPlaying = true
    ∧ mass12.position.z < gPlaying.cameraZ - 2500
    ∧ gPlaying.cameraZ - 1500 ≤ (OrganicMass.update envMin gPlaying 0 mass12).1.position.z :=
  have hz : mass12.position.z < gPlaying.cameraZ - 2500 := by
    rw [mass12_depth]
    norm_num [gPlaying, gPaused]
  ⟨envMin_inRange, rfl, hz,
    ((C4_recycle_resets_depth envMin envMin_inRange gPlaying rfl 0).1 mass12).1 hz⟩

/-- C5 at two playing updates of a mass that is not behind its recycling
plane: the number of vertices stays. -/
theorem C5_count_invariant_without_recycle_witness :
    (updates (OrganicMass.update envMin) [gNear, gNear] (mass12, 0)).1.vertices.length
      = mass12.vertices.length
    ∧ (updates (OrganicMass.update envMin) [gNear, gNear] (mass12, 0)).1.position.z
      = mass12.position.z :=
  (C5_count_invariant_without_recycle envMin [gNear, gNear] 0).1 mass12
    (by
      intro g hg
      simp only [List.mem_cons, List.mem_singleton, List.not_mem_nil, or_false, or_self] at hg
      rw [hg, mass12_depth]
      norm_num [gNear])

/-- C6 (amended) at a recycled cluster and a recycled mass: the cluster is
rebuilt with `baseCount` particles, the mass with `floor(random(12, 20))`
vertices. -/
theorem C6_recycle_counts_witness :
    gPlaying.isPlaying = true
    ∧ (ParticleCluster.update envMid gPlaying 0 cluster40).1.particles.length
        = cluster40.baseCount.toNat
    ∧ (OrganicMass.update envMid gPlaying 0 mass12).1.vertices.length
        = ⌊envMid.random (0 + 1) 12 20⌋.toNat :=
  have hc : cluster40.position.z < gPlaying.cameraZ - 2200 := by
    rw [cluster40_facts.2.2]
    norm_num [gPlaying, gPaused]
  have hm : mass12.position.z < gPlaying.cameraZ - 2500 := by
    rw [mass12_depth]
    norm_num [gPlaying, gPaused]
  ⟨rfl, ((C6_recycle_counts envMid gPlaying rfl 0).2.2.1 cluster40 hc).1,
    (C6_recycle_counts envMid gPlaying rfl 0).1 mass12 hm⟩

/-- C7 at two paused updates of a mass that is behind its recycling plane:
nothing changes. -/
theorem C7_pause_changes_nothing_witness :
    (∀ g ∈ [gPaused, gPaused], g.isPlaying = false)
    ∧ mass12.position.z < gPaused.cameraZ - 2500
    ∧ updates (OrganicMass.update envMin) [gPaused, gPaused] (mass12, 0) = (mass12, 0) :=
  have hp : ∀ g ∈ [gPaused, gPaused], g.isPlaying = false := by
    intro g hg
    simp only [List.mem_cons, List.mem_singleton, List.not_mem_nil, or_false, or_self] at hg
    rw [hg]
    rfl
  ⟨hp, by rw [mass12_depth]; norm_num [gPaused],
    (C7_pause_changes_nothing envMin [gPaused, gPaused] hp 0).1 mass12⟩

/-- C9 at two frames with readings 100 after the start of playback. -/
theorem C9_depth_band_invariant_witness :
    RandomInRange envMin
    ∧ InBand (run envMin
        [Event.soundLoaded, Event.initializeAudio true, Event.togglePlay, Event.draw raw100,
          Event.draw raw100]
        (setup envMin none "enter garden")) :=
  ⟨envMin_inRange,
    (C9_depth_band_invariant envMin envMin_inRange).2.2.2 none "enter garden"
      [Event.soundLoaded, Event.initializeAudio true, Event.togglePlay, Event.draw raw100,
        Event.draw raw100]
      (by
        intro e he
        simp only [List.mem_cons, List.mem_singleton, List.not_mem_nil, or_false] at he
        rcases he with he | he | he | he | he <;> rw [he] <;>
          simp only [EventInRange, RawInRange, raw100] <;> norm_num)⟩

/-- C10 at a state whose sound is not loaded: one call and three calls of
`togglePlay` leave `isPlaying` false. -/
theorem C10_togglePlay_without_preconditions_witness :
    (gUnloaded.audioContextInitialized = false ∨ gUnloaded.audioLoaded = false)
    ∧ (togglePlay gUnloaded).isPlaying = gUnloaded.isPlaying
    ∧ (togglePlay^[3] gUnloaded).isPlaying = false :=
  ⟨Or.inr rfl, (C10_togglePlay_without_preconditions gUnloaded (Or.inr rfl)).2.1,
    ((C10_togglePlay_without_preconditions gUnloaded (Or.inr rfl)).2.2.2.2.1 rfl rfl 3).1⟩

/-- C11 at two readings of 100 after silence: the smoothed values stay in
`[0, 255]`. -/
theorem C11_smoothed_within_history_witness :
    (0 ≤ (smoothRun [raw100, raw100] gPaused).smoothedBass
      ∧ (smoothRun [raw100, raw100] gPaused).smoothedBass ≤ 255)
    ∧ (0 ≤ (smoothRun [raw100, raw100] gPaused).smoothedMid
      ∧ (smoothRun [raw100, raw100] gPaused).smoothedMid ≤ 255)
    ∧ (0 ≤ (smoothRun [raw100, raw100] gPaused).smoothedTreble
      ∧ (smoothRun [raw100, raw100] gPaused).smoothedTreble ≤ 255) :=
  (C11_smoothed_within_history [raw100, raw100] gPaused).2.1 rfl rfl rfl
    (by
      intro raw hraw
      simp only [List.mem_cons, List.mem_singleton, List.not_mem_nil, or_false, or_self] at hraw
      rw [hraw]
      simp only [RawInRange, raw100]
      norm_num)

/-- C12 at a mass built at camera depth 0 and updated twice, the first time
with a recycle: it has 12 to 20 vertices. -/
theorem C12_substructure_counts_in_range_witness :
    RandomHalfOpen envMin
    ∧ 12 ≤ (updates (OrganicMass.update envMin) [gPlaying, gPlaying]
        (OrganicMass.new envMin 0 0)).1.vertices.length
    ∧ (updates (OrganicMass.update envMin) [gPlaying, gPlaying]
        (OrganicMass.new envMin 0 0)).1.vertices.length ≤ 20 :=
  ⟨envMin_halfOpen,
    (C12_substructure_counts_in_range envMin envMin_halfOpen 0 0 [gPlaying, gPlaying]).1⟩

/-- C13 at a particle whose offset has length 150, through two updates at
the largest treble: the length stays at most 150. -/
theorem C13_particle_offsets_bounded_witness :
    NoiseInUnit envMin ∧ UnitDirections envMin
    ∧ particle150.offset.magSq ≤ 150 * 150
    ∧ (moveParticleRun envMin [(gTreble, 0, 0), (gTreble, 2, 0)] particle150).offset.magSq
        ≤ 150 * 150 :=
  ⟨envMin_noise, envMin_directions, particle150_magSq,
    ((C13_particle_offsets_bounded envMin envMin_noise envMin_directions).2.1
      [(gTreble, 0, 0), (gTreble, 2, 0)] particle150
      (by
        intro c hc
        simp only [List.mem_cons, List.mem_singleton, List.not_mem_nil, or_false] at hc
        rcases hc with hc | hc <;> rw [hc] <;>
          · show (0 : ℚ) ≤ 255 ∧ (255 : ℚ) ≤ 255
            norm_num)
      particle150_magSq).1⟩

end Garden
